import Mathlib

/-!
Verification of the tool-tool engine (template expansion, acquisition
pipeline, lock guard, command execution) against a shallow embedding of its
Rust sources.  Strings are modelled as lists of characters together with
explicit UTF-8 byte lengths, because the template parser in the source mixes
byte offsets (str::len, slicing) with char-vector indexing.  Side-effecting
code is modelled as functions from an oracle world to a trace of adapter
effects plus a result.
-/

namespace ToolTool

/-- Model of a Rust String / str value: its sequence of Unicode characters. -/
abbrev Str := List Char

/-- Shorthand to write Str literals. -/
def str (s : String) : Str := s.toList

/-- Byte length of the UTF-8 encoding, i.e. Rust str::len. -/
def utf8Len : Str → Nat
  | [] => 0
  | c :: s => c.utf8Size + utf8Len s

/-- Drop a prefix of the given byte length.  Returns none when the byte
offset is out of range or does not fall on a character boundary (a Rust
slicing panic). -/
def byteDrop : Str → Nat → Option Str
  | s, 0 => some s
  | [], _ + 1 => none
  | c :: s, n + 1 =>
    if c.utf8Size ≤ n + 1 then byteDrop s (n + 1 - c.utf8Size) else none

/-- Take a prefix of the given byte length.  Returns none when the byte
offset is out of range or does not fall on a character boundary. -/
def byteTake : Str → Nat → Option Str
  | _, 0 => some []
  | [], _ + 1 => none
  | c :: s, n + 1 =>
    if c.utf8Size ≤ n + 1 then (byteTake s (n + 1 - c.utf8Size)).map (c :: ·)
    else none

/-- Model of the Rust byte slice value[a..b] (callers below always have
a ≤ b).  none models a slicing panic. -/
def byteSlice (s : Str) (a b : Nat) : Option Str :=
  (byteDrop s a).bind fun t => byteTake t (b - a)

/-- Model of Rust str::split_once: split at the first occurrence of c. -/
def splitOnce (c : Char) : Str → Option (Str × Str)
  | [] => none
  | x :: xs =>
    if x = c then some ([], xs)
    else (splitOnce c xs).map fun p => (x :: p.1, p.2)

/-- Model of Rust str::split(c) collected to a list: always non-empty, the
empty string yields one empty piece. -/
def splitOn (c : Char) : Str → List Str
  | [] => [[]]
  | x :: xs =>
    if x = c then [] :: splitOn c xs
    else
      match splitOn c xs with
      | h :: t => (x :: h) :: t
      | [] => [[x]]

/-- template_string.rs: one substitution directive with its arguments. -/
structure TemplateStringSubstitution where
  directive : Str
  arguments : List Str
deriving DecidableEq, Repr

/-- template_string.rs: a parsed template segment. -/
inductive TemplateStringPart where
  | plainText (text : Str)
  | substitution (sub : TemplateStringSubstitution)
deriving DecidableEq, Repr

/-- template_string.rs: a parsed template string. -/
structure TemplateString where
  parts : List TemplateStringPart
deriving DecidableEq, Repr

/-- Build the substitution part pushed by the parser: the body between the
braces is split at the first colon into directive and argument text, a
missing colon yields empty argument text, and the argument text is split on
commas (so there is always at least one argument, possibly empty). -/
def mkSubstitution (body : Str) : TemplateStringPart :=
  let p := (splitOnce ':' body).getD (body, [])
  TemplateStringPart.substitution ⟨p.1, splitOn ',' p.2⟩

/-- Inner scanning loop of the parser: advance until the next closing brace
character or the end of the byte range.  Mirrors the source loop, which
compares the position against the BYTE length but indexes the CHAR vector, so
none (a panic) results when the position exceeds the char count while still
below the byte count.  The fuel argument only serves termination; the callers
always pass enough. -/
def scanCloseF : Nat → Str → Nat → Option Nat
  | 0, _, _ => none
  | fuel + 1, s, pos =>
    if pos < utf8Len s then
      match s.get? pos with
      | none => none
      | some c => if c = '}' then some pos else scanCloseF fuel s (pos + 1)
    else some pos

/-- Main parser loop of TryFrom for TemplateString (template_string.rs).
A substitution starts at a dollar-brace pair; the body runs to the next
closing brace or, unterminated, to the end of input; an empty body produces
no part.  The source iterates a single position over the BYTE length while
indexing the collected CHAR vector and slicing by byte offsets; none models
the resulting index/slice panics on non-ASCII input. -/
def parseLoopF : Nat → Str → Nat → Nat → List TemplateStringPart →
    Option (List TemplateStringPart)
  | 0, _, _, _, _ => none
  | fuel + 1, s, startPos, pos, parts =>
    if pos < utf8Len s then
      match s.get? pos with
      | none => none
      | some c =>
        if c = '$' then
          if pos + 1 < utf8Len s then
            match s.get? (pos + 1) with
            | none => none
            | some c2 =>
              if c2 = '{' then do
                let parts1 ←
                  if startPos < pos then do
                    let t ← byteSlice s startPos pos
                    pure (parts ++ [TemplateStringPart.plainText t])
                  else pure parts
                let subStart := pos + 2
                let subEnd ← scanCloseF (utf8Len s + 1) s subStart
                let parts2 ←
                  if subStart < subEnd then do
                    let body ← byteSlice s subStart subEnd
                    pure (parts1 ++ [mkSubstitution body])
                  else pure parts1
                parseLoopF fuel s (subEnd + 1) (subEnd + 1) parts2
              else parseLoopF fuel s startPos (pos + 1) parts
          else parseLoopF fuel s startPos (pos + 1) parts
        else parseLoopF fuel s startPos (pos + 1) parts
    else
      if startPos < pos then do
        let t ← byteSlice s startPos pos
        pure (parts ++ [TemplateStringPart.plainText t])
      else pure parts

/-- TryFrom for TemplateString: the source always returns Ok, so the only
failure mode is a panic (modelled as none).  The fuel bound suffices because
the position strictly increases on every iteration. -/
def TemplateString.try_from (s : Str) : Option TemplateString :=
  (parseLoopF (utf8Len s + 1) s 0 0 []).map TemplateString.mk

/-- Error message of the bail in TemplateExpander::expand for a directive with
no registered replacer (the source wraps the name in single quotes; the
quoting is omitted here). -/
def unknownDirectiveMsg (d : Str) : Str :=
  str "Unknown substitution directive " ++ d

/-- template_expander.rs: the replacer registry, a HashMap from directive name
to replacer.  In this version of the expander a replacer returns a plain
string and cannot fail. -/
def Replacers : Type := Str → Option (TemplateStringSubstitution → Str)

/-- TemplateExpander::expand over the part list: literal segments are
concatenated verbatim, each substitution is replaced by its registered
replacer output, and an unregistered directive aborts with the unknown
directive error. -/
def expandParts (replacer : Replacers) : List TemplateStringPart → Except Str Str
  | [] => .ok []
  | .plainText t :: rest => (expandParts replacer rest).map (t ++ ·)
  | .substitution sub :: rest =>
    match replacer sub.directive with
    | some r => (expandParts replacer rest).map (r sub ++ ·)
    | none => .error (unknownDirectiveMsg sub.directive)

/-- template_expander.rs: TemplateExpander::expand. -/
def TemplateExpander.expand (replacer : Replacers) (t : TemplateString) :
    Except Str Str :=
  expandParts replacer t.parts

/-- Replacer registry for the expander variant used by expand_config.rs,
where replacers return a Result (e.g. the env directive can fail). -/
def ReplacersE : Type := Str → Option (TemplateStringSubstitution → Except Str Str)

/-- Expansion over parts for the fallible-replacer registry: same
concatenation-in-order contract, propagating the first replacer error and
failing on unregistered directives. -/
def expandPartsE (replacer : ReplacersE) : List TemplateStringPart → Except Str Str
  | [] => .ok []
  | .plainText t :: rest => (expandPartsE replacer rest).map (t ++ ·)
  | .substitution sub :: rest =>
    match replacer sub.directive with
    | some r => do
      let v ← r sub
      let restV ← expandPartsE replacer rest
      pure (v ++ restV)
    | none => .error (unknownDirectiveMsg sub.directive)

/-- configuration/platform.rs: the supported host/download platforms. -/
inductive DownloadPlatform where
  | Linux
  | MacOS
  | Windows
deriving DecidableEq, Repr

/-- DownloadPlatform::as_str (also its Display implementation). -/
def DownloadPlatform.as_str : DownloadPlatform → Str
  | .Windows => str "windows"
  | .Linux => str "linux"
  | .MacOS => str "macos"

/-- Modelled from the spec: DownloadPlatform::VALUES, referenced by
expand_config.rs but absent from the platform.rs snapshot; one entry per
supported platform (linux, windows, macos per the spec and the enum). -/
def DownloadPlatform.VALUES : List DownloadPlatform :=
  [.Linux, .MacOS, .Windows]

/-- DownloadPlatform::get_executable_extensions. -/
def DownloadPlatform.get_executable_extensions : DownloadPlatform → List Str
  | .Windows => [str ".exe", str ".bat", str ".cmd"]
  | .Linux => [[]]
  | .MacOS => [[]]

/-- configuration.rs: one download location (its URL, a template before
expansion). -/
structure DownloadArtifact where
  url : Str
deriving DecidableEq, Repr

/-- configuration.rs: one invocable command of a tool. -/
structure Command where
  name : Str
  command_string : Str
  description : Str
deriving DecidableEq, Repr

/-- types.rs: one environment entry. -/
structure EnvPair where
  key : Str
  value : Str
deriving DecidableEq, Repr

/-- configuration.rs: one managed tool.  The download_urls BTreeMap is
modelled as an association list in key order. -/
structure ToolConfiguration where
  name : Str
  version : Str
  default_download_artifact : Option DownloadArtifact
  download_urls : List (DownloadPlatform × DownloadArtifact)
  commands : List Command
  env : List EnvPair
deriving DecidableEq, Repr

/-- configuration.rs: the whole manifest. -/
structure ToolToolConfiguration where
  tools : List ToolConfiguration
deriving DecidableEq, Repr

/-- Modelled from the spec: configuration::find_command, called by
run_command.rs and expand_config.rs but not present in the configuration.rs
snapshot (execute_tool.rs shows the equivalent inline search).  Scans the
tools in order for the first one declaring a command with the requested name;
absence is the fatal no-tool-found error. -/
def find_command (commandName : Str) (config : ToolToolConfiguration) :
    Except Str (ToolConfiguration × Command) :=
  match config.tools.findSome? (fun tool =>
      (tool.commands.find? (fun c => c.name = commandName)).map (tool, ·)) with
  | some tc => .ok tc
  | none => .error (str "No tool found for command " ++ commandName)

/-- Message used to model a Rust panic from indexing arguments[0] of a
substitution whose argument list is empty.  Parser-produced substitutions
always carry at least one argument, so this is unreachable for parsed
templates. -/
def argPanicMsg : Str := str "panic: index out of bounds (arguments[0])"

/-- expand_config.rs create_expander: the dir replacer.  Looks the tool up in
the configuration snapshot the expander was built over and formats the
hard-coded cache path with the tool name, version and the host platform. -/
def dirReplacer (config : ToolToolConfiguration) (host : DownloadPlatform)
    (sub : TemplateStringSubstitution) : Except Str Str :=
  match sub.arguments with
  | [] => .error argPanicMsg
  | toolName :: _ =>
    match config.tools.find? (fun t => t.name = toolName) with
    | none => .error (str "Could not find tool " ++ toolName)
    | some tool =>
      .ok (str ".tool-tool/v2/cache/" ++ tool.name ++ str "-" ++ tool.version
        ++ str "-" ++ host.as_str)

/-- expand_config.rs create_expander: the replacer registered for platform p
given host platform host.  The host platform replacer yields the first
argument unchanged, every other platform replacer yields the empty string. -/
def platformReplacer (p host : DownloadPlatform)
    (sub : TemplateStringSubstitution) : Except Str Str :=
  if p = host then
    match sub.arguments with
    | [] => .error argPanicMsg
    | a :: _ => .ok a
  else .ok []

/-- expand_config.rs create_expander: the env replacer, reading the adapter
environment snapshot. -/
def envReplacer (envList : List (Str × Str))
    (sub : TemplateStringSubstitution) : Except Str Str :=
  match sub.arguments with
  | [] => .error argPanicMsg
  | arg :: _ =>
    match envList.find? (fun p => p.1 = arg) with
    | some p => .ok p.2
    | none => .error (str "Could not find environment variable " ++ arg)

/-- expand_config.rs create_expander with the cmd replacer supplied by the
caller (the cmd replacer is recursive; see expand_commandF).  The registry
holds dir, one replacer per platform in VALUES, cmd and env; registration
order is irrelevant for a map with distinct keys. -/
def create_expander_with (cmdR : TemplateStringSubstitution → Except Str Str)
    (config : ToolToolConfiguration) (host : DownloadPlatform)
    (envList : List (Str × Str)) : ReplacersE := fun key =>
  if key = str "dir" then some (dirReplacer config host)
  else if key = str "linux" then some (platformReplacer .Linux host)
  else if key = str "macos" then some (platformReplacer .MacOS host)
  else if key = str "windows" then some (platformReplacer .Windows host)
  else if key = str "cmd" then some cmdR
  else if key = str "env" then some (envReplacer envList)
  else none

/-- TemplateExpander::add_replace_fn: insert or overwrite one registry
entry. -/
def addReplacer (r : ReplacersE) (key : Str)
    (f : TemplateStringSubstitution → Except Str Str) : ReplacersE :=
  fun k => if k = key then some f else r k

/-- Expand one raw template string with a given registry: parse it (a parse
panic is surfaced as an error) and expand the parts. -/
def expandRaw (replacers : ReplacersE) (s : Str) : Except Str Str :=
  match TemplateString.try_from s with
  | none => .error (str "panic in template parsing")
  | some t => expandPartsE replacers t.parts

/-- expand_config.rs expand_command, fuel-indexed: resolve the referenced
command, build a fresh expander over the same configuration snapshot, bind
version to the owning tool and expand the command string.  The source has no
recursion guard (marked TODO) and recurses without bound on cyclic cmd
references; the fuel exists only to make the model total and is not part of
the source semantics. -/
def expand_commandF : Nat → ToolToolConfiguration → DownloadPlatform →
    List (Str × Str) → Str → Except Str Str
  | 0, _, _, _, _ => .error (str "model fuel exhausted (source recurses unboundedly)")
  | fuel + 1, config, host, envList, commandName => do
    let tc ← find_command commandName config
    let replacers := addReplacer
      (create_expander_with
        (fun sub =>
          match sub.arguments with
          | [] => .error argPanicMsg
          | a :: _ => expand_commandF fuel config host envList a)
        config host envList)
      (str "version") (fun _ => .ok tc.1.version)
    expandRaw replacers tc.2.command_string

/-- expand_config.rs create_expander at a given recursion budget for the cmd
replacer. -/
def create_expander (fuel : Nat) (config : ToolToolConfiguration)
    (host : DownloadPlatform) (envList : List (Str × Str)) : ReplacersE :=
  create_expander_with
    (fun sub =>
      match sub.arguments with
      | [] => .error argPanicMsg
      | a :: _ => expand_commandF fuel config host envList a)
    config host envList

/-- expand_config.rs expand_configuration_template_expressions: clone the
original configuration, build one expander over that original snapshot, and
for every tool (with version rebound to that tool) expand its download urls,
command strings and env values in place.  The default download artifact is
not expanded by the source. -/
def expand_configuration_template_expressions (fuel : Nat)
    (config : ToolToolConfiguration) (host : DownloadPlatform)
    (envList : List (Str × Str)) : Except Str ToolToolConfiguration := do
  let original := config
  let tools ← config.tools.mapM (fun tool => do
    let replacers := addReplacer (create_expander fuel original host envList)
      (str "version") (fun _ => .ok tool.version)
    let urls ← tool.download_urls.mapM (fun pa => do
      let u ← expandRaw replacers pa.2.url
      pure (pa.1, DownloadArtifact.mk u))
    let cmds ← tool.commands.mapM (fun c => do
      let cs ← expandRaw replacers c.command_string
      pure { c with command_string := cs })
    let envs ← tool.env.mapM (fun e => do
      let v ← expandRaw replacers e.value
      pure { e with value := v })
    pure { tool with download_urls := urls, commands := cmds, env := envs })
  pure ⟨tools⟩

/-- A filesystem path, as its list of components (the sources use
relative-path RelativePathBuf values; join appends components and does not
normalize parent-directory components). -/
abbrev Path := List Str

/-- Render a path the way RelativePathBuf displays it (components joined by
slashes). -/
def pathToStr : Path → Str
  | [] => []
  | [c] => c
  | c :: rest => c ++ str "/" ++ pathToStr rest

/-- Join a list of strings with a separator (Rust slice join). -/
def joinWith (sep : Str) : List Str → Str
  | [] => []
  | [x] => x
  | x :: rest => x ++ sep ++ joinWith sep rest

/-- adapter.rs ExecutionRequest. -/
structure ExecutionRequest where
  binary_path : Path
  args : List Str
  env : List EnvPair
deriving DecidableEq, Repr

/-- One observable adapter effect, mirroring the adapter trait operations
(and the effect log of the test adapter). -/
inductive Effect where
  | randomString
  | fileExistsQ (p : Path)
  | readFile (p : Path)
  | createDir (p : Path)
  | deleteDir (p : Path)
  | createFile (p : Path)
  | writeFile (p : Path) (content : Str)
  | downloadTo (url : Str) (dest : Path)
  | print (msg : Str)
  | tryLock
  | unlock
  | sleep (seconds : Nat)
  | execute (req : ExecutionRequest)
  | exit (code : Int)
deriving DecidableEq, Repr

/-- lock_guard.rs: the one-time notice printed on the first failed lock
attempt. -/
def acquireMsg : Str := str "Acquiring exclusive lock..."

/-- lock_guard.rs: the timeout error after exhausting all attempts. -/
def lockTimeoutMsg : Str := str "Failed to acquire lock after 60 seconds"

/-- lock_guard.rs LockGuard::new retry loop.  tryLockResult gives the result
of the n-th try_lock call (the adapter try_lock is fallible in the source but
the model takes the successful boolean); remaining counts attempts left out
of 60; hasMessaged records whether the acquiring notice was printed. -/
def lockLoop (tryLockResult : Nat → Bool) :
    Nat → Nat → Bool → List Effect × Except Str Unit
  | _, 0, _ => ([], .error lockTimeoutMsg)
  | attempt, remaining + 1, hasMessaged =>
    if tryLockResult attempt then ([Effect.tryLock], .ok ())
    else
      let notice := if hasMessaged then [] else [Effect.print acquireMsg]
      let rec2 := lockLoop tryLockResult (attempt + 1) remaining true
      (Effect.tryLock :: (notice ++ Effect.sleep 1 :: rec2.1), rec2.2)

/-- lock_guard.rs LockGuard::new: up to 60 try_lock attempts with a one
second sleep after each failure. -/
def LockGuard.new (tryLockResult : Nat → Bool) : List Effect × Except Str Unit :=
  lockLoop tryLockResult 0 60 false

/-- lock_guard.rs Drop for LockGuard: releasing the guard calls unlock (Rust
runs Drop on every exit path of the scope holding the guard). -/
def LockGuard.drop : List Effect := [Effect.unlock]

/-- The checksum ledger mapping (BTreeMap from url to lowercase hex digest),
modelled as an association list in key order. -/
abbrev Sha512Sums := List (Str × Str)

/-- BTreeMap::get. -/
def sumsGet (m : Sha512Sums) (k : Str) : Option Str :=
  (m.find? (fun p => p.1 = k)).map (·.2)

/-- BTreeMap::contains_key. -/
def sumsContains (m : Sha512Sums) (k : Str) : Bool :=
  (m.find? (fun p => p.1 = k)).isSome

/-- Lexicographic order on strings (Rust String Ord), used to keep the
ledger association list in BTreeMap key order. -/
def strLt : Str → Str → Bool
  | [], [] => false
  | [], _ :: _ => true
  | _ :: _, [] => false
  | a :: as, b :: bs => if a < b then true else if b < a then false else strLt as bs

/-- BTreeMap::insert keeping key order (replaces an existing key). -/
def sumsInsert (m : Sha512Sums) (k v : Str) : Sha512Sums :=
  match m with
  | [] => [(k, v)]
  | (k0, v0) :: rest =>
    if k = k0 then (k, v) :: rest
    else if strLt k k0 then (k, v) :: (k0, v0) :: rest
    else (k0, v0) :: sumsInsert rest k v

/-- file_type.rs FileType. -/
inductive FileType where
  | Zip
  | TarGz
  | Exe
  | None
  | Unknown
  | Other (ext : Str)
deriving DecidableEq, Repr

/-- Rust iterator split(c).next(): the text before the first occurrence of
c (the whole text when absent). -/
def takeBefore (c : Char) (s : Str) : Str := s.takeWhile (· ≠ c)

/-- file_type.rs get_filename_from_url: strip query string and fragment,
take the last slash-separated segment, reject an empty one. -/
def get_filename_from_url (url : Str) : Option Str :=
  let u := takeBefore '#' (takeBefore '?' url)
  match (splitOn '/' u).getLast? with
  | some f => if f = [] then none else some f
  | none => none

/-- file_type.rs get_file_type_from_url. -/
def get_file_type_from_url (url : Str) : FileType :=
  match get_filename_from_url url with
  | Option.none => .Unknown
  | Option.some filename =>
    if (str ".exe").isSuffixOf filename then .Exe
    else if (str ".zip").isSuffixOf filename then .Zip
    else if (str ".tar.gz").isSuffixOf filename then .TarGz
    else if (str ".tar").isSuffixOf filename then .None
    else
      match splitOnce '.' filename with
      | Option.none => .None
      | Option.some p => .Other p.2

/-- One zip archive entry as the zip crate presents it: its raw path (an
absolute flag plus components, which may include parent-directory tokens), a
directory flag and its bytes. -/
structure ZipEntry where
  name_absolute : Bool
  name_components : List Str
  is_dir : Bool
  content : Str
deriving DecidableEq, Repr

/-- tar crate entry types relevant to extract_targz. -/
inductive EntryType where
  | Directory
  | Regular
  | OtherType
deriving DecidableEq, Repr

/-- One tar archive entry: raw path (absolute flag plus components, possibly
containing parent-directory tokens), entry type and bytes. -/
structure TarEntry where
  absolute : Bool
  components : List Str
  entry_type : EntryType
  content : Str
deriving DecidableEq, Repr

/-- Model of zip crate ZipFile::enclosed_name: the entry path, or none when
the path is not safe (absolute or containing a parent-directory
component). -/
def enclosed_name (e : ZipEntry) : Option (List Str) :=
  if e.name_absolute ∨ (str "..") ∈ e.name_components then none
  else some e.name_components

/-- Whether a relative component list, resolved against a base directory,
steps outside that base directory at any point (parent-directory components
underflowing the depth). -/
def escapesRelAux : List Str → Nat → Bool
  | [], _ => false
  | c :: rest, depth =>
    if c = str ".." then
      match depth with
      | 0 => true
      | d + 1 => escapesRelAux rest d
    else if c = str "." then escapesRelAux rest depth
    else escapesRelAux rest (depth + 1)

/-- A relative component list escapes its base directory. -/
def escapesRel (rel : List Str) : Bool := escapesRelAux rel 0

/-- download_task.rs extract_zip body per entry list: skip entries without an
enclosed name, strip exactly one leading path component, join onto the
destination, create directories for directory entries and parent-dir +
file + contents for file entries. -/
def extract_zip_entries : List ZipEntry → Path → List Effect × Except Str Unit
  | [], _ => ([], .ok ())
  | e :: rest, destination_path =>
    match enclosed_name e with
    | Option.none => extract_zip_entries rest destination_path
    | Option.some comps =>
      let stripped := comps.drop 1
      let joined := destination_path ++ stripped
      let es :=
        if e.is_dir then [Effect.createDir joined]
        else
          (if joined = [] then [] else [Effect.createDir joined.dropLast])
          ++ [Effect.createFile joined, Effect.writeFile joined e.content]
      let rec2 := extract_zip_entries rest destination_path
      (es ++ rec2.1, rec2.2)

/-- download_task.rs extract_zip: read the archive, then process its
entries. -/
def extract_zip (entries : List ZipEntry) (zip_path destination_path : Path) :
    List Effect × Except Str Unit :=
  let rec2 := extract_zip_entries entries destination_path
  (Effect.readFile zip_path :: rec2.1, rec2.2)

/-- Error produced by RelativePathBuf::from_path on a non-relative (absolute)
entry path, which aborts tar extraction through the question-mark operator. -/
def relativePathErrMsg : Str := str "path is not relative"

/-- download_task.rs extract_targz body per entry list: converting an
absolute entry path to a relative path fails and aborts; otherwise strip
exactly one leading component, join onto the destination and write according
to the entry type (directory, regular file, or skip). -/
def extract_targz_entries : List TarEntry → Path → List Effect × Except Str Unit
  | [], _ => ([], .ok ())
  | e :: rest, destination_path =>
    if e.absolute then ([], .error relativePathErrMsg)
    else
      let stripped := e.components.drop 1
      let joined := destination_path ++ stripped
      let es :=
        match e.entry_type with
        | .Directory => [Effect.createDir joined]
        | .Regular =>
          (if joined = [] then [] else [Effect.createDir joined.dropLast])
          ++ [Effect.createFile joined, Effect.writeFile joined e.content]
        | .OtherType => []
      let rec2 := extract_targz_entries rest destination_path
      (es ++ rec2.1, rec2.2)

/-- download_task.rs extract_targz: read the archive, then process its
entries. -/
def extract_targz (entries : List TarEntry) (targz_path destination_path : Path) :
    List Effect × Except Str Unit :=
  let rec2 := extract_targz_entries entries destination_path
  (Effect.readFile targz_path :: rec2.1, rec2.2)

/-- Oracle world for the acquisition pipeline: answers of the injected
adapter.  File existence and content queries in download_tool all happen
before the queried path is mutated by the same run (the temp directory query
directly after its creation is adapter-dependent and is answered by the
oracle), so a static oracle is faithful; downloads are pure functions of the
url; the SHA-512 digest is an external primitive modelled as an abstract
hash function; random strings are indexed by an allocation counter; archive
decoding by the zip/tar crates is modelled as a function of the archive
bytes. -/
structure DownloadWorld where
  platform : DownloadPlatform
  fileExists : Path → Bool
  fileContent : Path → Str
  urlContent : Str → Str
  hash : Str → Str
  randomString : Nat → Str
  zipEntries : Str → List ZipEntry
  tarEntries : Str → List TarEntry

/-- Modelled from the spec: Workspace::cache_dir, absent from the workspace.rs
snapshot; the versioned cache tree of the persisted state layout (also the
path shown by the runner tests). -/
def cache_dir : Path := [str ".tool-tool", str "v2", str "cache"]

/-- download_task.rs download_tool: the cache directory of one tool, named
by name and version. -/
def tool_path (tool : ToolConfiguration) : Path :=
  cache_dir ++ [tool.name ++ str "-" ++ tool.version]

/-- download_task.rs download_tool: the sidecar checksum marker file inside
the tool cache directory. -/
def checksum_path (tool : ToolConfiguration) : Path :=
  tool_path tool ++ [str ".tool-tool.sha512"]

/-- Modelled from the spec: Workspace::create_temp_dir target path, the
cache/tmp scratch area with a tool-name prefix and a random component (as in
the runner tests). -/
def temp_dir_path (tool : ToolConfiguration) (rand : Str) : Path :=
  cache_dir ++ [str "tmp", tool.name ++ str "-" ++ rand]

/-- download_task.rs: the download destination inside the temp directory,
named by tool name, version and platform. -/
def download_path (tool : ToolConfiguration) (platform : DownloadPlatform)
    (rand : Str) : Path :=
  temp_dir_path tool rand
    ++ [str "download-" ++ tool.name ++ str "-" ++ tool.version ++ str "-"
        ++ platform.as_str]

/-- checksums.rs: the persisted ledger file (tool_tool_dir joined with the
checksum file name, as exercised by the checksums.rs test). -/
def checksums_file_path : Path := [str ".tool-tool", str "v2", str "checksums.toml"]

/-- checksums.rs save_checksums serialization: a sha512sums header line then
one quoted url=digest line per entry in key order. -/
def serialize_checksums (m : Sha512Sums) : Str :=
  str "[sha512sums]\n"
  ++ (m.map (fun p => str "\"" ++ p.1 ++ str "\"=\"" ++ p.2 ++ str "\"\n")).flatten

/-- checksums.rs save_checksums: serialize the full mapping and overwrite the
ledger file. -/
def save_checksums (m : Sha512Sums) : List Effect :=
  [Effect.createFile checksums_file_path,
   Effect.writeFile checksums_file_path (serialize_checksums m)]

/-- download_task.rs download_tool error for a tool with no artifact for the
host platform and no default artifact (the source wraps names in single
quotes; quoting is omitted). -/
def no_download_url_msg (tool : ToolConfiguration) (host : DownloadPlatform) : Str :=
  str "No download url found for tool " ++ tool.name ++ str " on platform "
  ++ host.as_str

/-- download_task.rs download_tool checksum mismatch error, reporting the
expected (ledger) and actual (computed) digests. -/
def checksum_mismatch_msg (name expected actual : Str) : Str :=
  str "Checksum mismatch for tool " ++ name ++ str "\nExpected: " ++ expected
  ++ str "\nActual:   " ++ actual

/-- download_task.rs extract_tool: dispatch on the file type determined from
the url; zip and tar.gz extract, anything else hits the unimplemented-archive panic in the
source (modelled as an error). -/
def extract_tool (w : DownloadWorld) (ft : FileType) (archiveContent : Str)
    (download_path tool_path : Path) : List Effect × Except Str Unit :=
  match ft with
  | .Zip => extract_zip (w.zipEntries archiveContent) download_path tool_path
  | .TarGz => extract_targz (w.tarEntries archiveContent) download_path tool_path
  | _ => ([], .error (str "panic: todo (unsupported archive format)"))

/-- download_task.rs download_tool artifact selection: the host platform
url, else the default artifact. -/
def selected_artifact (w : DownloadWorld) (tool : ToolConfiguration) :
    Option DownloadArtifact :=
  (tool.download_urls.find? (fun pa => pa.1 = w.platform)).map (·.2)
    <|> tool.default_download_artifact

/-- download_task.rs download_tool: per-tool acquisition.  Select the
artifact (host platform url, else default, else fail); if the ledger knows
the url and the sidecar marker exists with the same digest, return without
downloading; otherwise create a temp dir, clear and recreate the cache dir,
download, hash, verify against the ledger (mismatch is fatal) or record the
new digest, clear the cache dir again, extract, drop the temp dir and write
the sidecar marker.  Returns the effect trace, and on success the updated
new-digest map plus the next random-string index. -/
def download_tool (w : DownloadWorld) (checksums : Sha512Sums)
    (tool : ToolConfiguration) (new_sha512sums : Sha512Sums) (randIdx : Nat) :
    List Effect × Except Str (Sha512Sums × Nat) :=
  match selected_artifact w tool with
  | Option.none => ([], .error (no_download_url_msg tool w.platform))
  | Option.some download_artifact =>
    let url := download_artifact.url
    let cp := checksum_path tool
    let pre :=
      match sumsGet checksums url with
      | Option.none => ([], false)
      | Option.some expected =>
        if w.fileExists cp then
          ([Effect.fileExistsQ cp, Effect.readFile cp], w.fileContent cp = expected)
        else ([Effect.fileExistsQ cp], false)
    if pre.2 then (pre.1, .ok (new_sha512sums, randIdx))
    else
      let rand := w.randomString randIdx
      let td := temp_dir_path tool rand
      let tp := tool_path tool
      let dp := download_path tool w.platform rand
      let es1 := pre.1
        ++ [Effect.randomString, Effect.createDir td, Effect.fileExistsQ td]
        ++ (if w.fileExists td then [Effect.deleteDir td] else [])
        ++ [Effect.createDir td, Effect.fileExistsQ tp]
        ++ (if w.fileExists tp then [Effect.deleteDir tp] else [])
        ++ [Effect.createDir tp, Effect.downloadTo url dp, Effect.readFile dp]
      let sha512 := w.hash (w.urlContent url)
      let verdict : Except Str Sha512Sums :=
        match sumsGet checksums url with
        | Option.some expected =>
          if sha512 = expected then .ok new_sha512sums
          else .error (checksum_mismatch_msg tool.name expected sha512)
        | Option.none => .ok (sumsInsert new_sha512sums url sha512)
      match verdict with
      | .error e => (es1, .error e)
      | .ok new2 =>
        let es2 := [Effect.deleteDir tp]
        let ext := extract_tool w (get_file_type_from_url url) (w.urlContent url) dp tp
        match ext.2 with
        | .error e => (es1 ++ es2 ++ ext.1, .error e)
        | .ok _ =>
          (es1 ++ es2 ++ ext.1
            ++ [Effect.deleteDir td, Effect.createFile cp, Effect.writeFile cp sha512],
           .ok (new2, randIdx + 1))

/-- run_download_task first pass: download_tool over each tool in order,
threading the new-digest map and random index, aborting on the first
error. -/
def download_tool_fold (w : DownloadWorld) (checksums : Sha512Sums) :
    List ToolConfiguration → Sha512Sums → Nat →
    List Effect × Except Str (Sha512Sums × Nat)
  | [], new, idx => ([], .ok (new, idx))
  | tool :: rest, new, idx =>
    let r := download_tool w checksums tool new idx
    match r.2 with
    | .error e => (r.1, .error e)
    | .ok ni =>
      let r2 := download_tool_fold w checksums rest ni.1 ni.2
      (r.1 ++ r2.1, r2.2)

/-- run_download_task second pass over one tool: for every declared
(platform, artifact) whose url the map does not know yet, download it to a
fresh temp dir purely to compute and record its digest, then delete the
temp dir. -/
def checksum_fill_tool (w : DownloadWorld) (tool : ToolConfiguration) :
    List (DownloadPlatform × DownloadArtifact) → Sha512Sums → Nat →
    List Effect × Sha512Sums × Nat
  | [], new, idx => ([], new, idx)
  | pa :: rest, new, idx =>
    if sumsContains new pa.2.url then checksum_fill_tool w tool rest new idx
    else
      let rand := w.randomString idx
      let td := temp_dir_path tool rand
      let dp := download_path tool pa.1 rand
      let es := [Effect.randomString, Effect.createDir td,
                 Effect.downloadTo pa.2.url dp, Effect.readFile dp,
                 Effect.deleteDir td]
      let new2 := sumsInsert new pa.2.url (w.hash (w.urlContent pa.2.url))
      let r := checksum_fill_tool w tool rest new2 (idx + 1)
      (es ++ r.1, r.2)

/-- run_download_task second pass over all tools. -/
def checksum_fill (w : DownloadWorld) :
    List ToolConfiguration → Sha512Sums → Nat → List Effect × Sha512Sums × Nat
  | [], new, idx => ([], new, idx)
  | tool :: rest, new, idx =>
    let r := checksum_fill_tool w tool tool.download_urls new idx
    let r2 := checksum_fill w rest r.2.1 r.2.2
    (r.1 ++ r2.1, r2.2)

/-- download_task.rs run_download_task: clone the loaded ledger, run
download_tool for every tool, complete missing digests for all declared
platforms, and persist the ledger once at the end only when it changed. -/
def run_download_task (w : DownloadWorld) (tools : List ToolConfiguration)
    (checksums : Sha512Sums) : List Effect × Except Str Sha512Sums :=
  let r1 := download_tool_fold w checksums tools checksums 0
  match r1.2 with
  | .error e => (r1.1, .error e)
  | .ok ni =>
    let r2 := checksum_fill w tools ni.1 ni.2
    let es3 := if r2.2.1 ≠ checksums then save_checksums r2.2.1 else []
    (r1.1 ++ r2.1 ++ es3, .ok r2.2.1)

/-- Oracle world for the command executor: argument vector, host platform and
environment, the external shellish tokenizer, fallible file-existence
answers, try-lock results, the child exit code and the two clock readings in
seconds. -/
structure RunWorld where
  args : List Str
  platform : DownloadPlatform
  hostEnv : List (Str × Str)
  shellish : Str → Except Str (List Str)
  fileExists : Path → Except Str Bool
  tryLockResult : Nat → Bool
  exitCode : Int
  startTime : Nat
  endTime : Nat

/-- run_command.rs extension loop: try each executable extension in order,
stopping at the first existing candidate, collecting file-existence errors
and continuing past them.  Returns the query effects, the found path and the
collected errors. -/
def locate_binary (w : RunWorld) (tp : Path) (binary : Str) :
    List Str → List Effect × Option Path × List Str
  | [] => ([], Option.none, [])
  | ext :: rest =>
    let candidate := tp ++ [binary ++ ext]
    match w.fileExists candidate with
    | .ok true => ([Effect.fileExistsQ candidate], some candidate, [])
    | .ok false =>
      let r := locate_binary w tp binary rest
      (Effect.fileExistsQ candidate :: r.1, r.2)
    | .error e =>
      let r := locate_binary w tp binary rest
      (Effect.fileExistsQ candidate :: r.1, r.2.1, e :: r.2.2)

/-- run_command.rs: the diagnostic when no extension candidate exists on
disk, listing the base path and the extension set tried. -/
def binary_not_found_msg (commandName toolName : Str) (tp : Path)
    (binary : Str) (extensions : List Str) : Str :=
  str "Failed to find binary for command " ++ commandName ++ str " in tool "
  ++ toolName ++ str ", found no matching executable binaries: "
  ++ pathToStr (tp ++ [binary]) ++ str "(" ++ joinWith (str "|") extensions
  ++ str ")"

/-- Decimal rendering of an integer for printed messages. -/
def intToStr (i : Int) : Str := (toString i).toList

/-- Decimal rendering of a natural number for printed messages. -/
def natToStr (n : Nat) : Str := (Nat.repr n).toList

/-- run_command.rs: the failure headline printed for a non-zero child exit
code, naming the command and the code. -/
def command_failed_msg (commandName : Str) (code : Int) : Str :=
  str "❗ Command " ++ commandName ++ str " failed with exit code "
  ++ intToStr code

/-- run_command.rs: the resolved invocation line printed for a non-zero child
exit code (binary path and all arguments). -/
def executed_command_msg (binary_path : Path) (args : List Str) : Str :=
  str "\tExecuted command was: " ++ pathToStr binary_path ++ str " "
  ++ joinWith (str " ") args

/-- run_command.rs: the duration notice printed when the child ran longer
than four seconds. -/
def took_msg (secs : Nat) : Str :=
  str "🕑  Command took " ++ natToStr secs ++ str " seconds\n"

/-- run_command.rs: the fixed allow-list of host environment variables
forwarded on Windows. -/
def inherited_env_vars : List Str :=
  [str "SYSTEMDRIVE", str "SYSTEMROOT", str "TEMP", str "TMP", str "WINDIR",
   str "OS"]

/-- run_command.rs environment assembly: on Windows a fixed PATHEXT entry
plus the present allow-listed host variables (missing ones only log a
warning), then the declared tool environment pairs. -/
def assemble_env (w : RunWorld) (tool : ToolConfiguration) : List EnvPair :=
  (if w.platform = .Windows then
    EnvPair.mk (str "PATHEXT") (str ".COM;.EXE;.BAT;.CMD")
      :: inherited_env_vars.filterMap (fun name =>
          (w.hostEnv.find? (fun p => p.1 = name)).map (fun p => EnvPair.mk name p.2))
  else []) ++ tool.env

/-- run_command.rs run_command: strip the binary name, resolve the command,
tokenize its command string (external shellish crate), locate the binary
under the lock guard, assemble arguments and environment, execute, print the
duration notice when slow and the failure diagnostics when the exit code is
non-zero, then return Ok regardless of the child exit code. -/
def run_command (w : RunWorld) (config : ToolToolConfiguration) :
    List Effect × Except Str Unit :=
  match w.args with
  | [] => ([], .error (str "panic: empty argument vector"))
  | [_] => ([], .error (str "panic: missing command name"))
  | _ :: command_name :: command_args =>
    match find_command command_name config with
    | .error e => ([], .error e)
    | .ok tc =>
      let extensions := w.platform.get_executable_extensions
      match w.shellish tc.2.command_string with
      | .error e => ([], .error e)
      | .ok [] => ([], .error (str "panic: empty parsed command"))
      | .ok (binary :: baseline_args) =>
        let tp := tool_path tc.1
        let lockR := LockGuard.new w.tryLockResult
        match lockR.2 with
        | .error e => (lockR.1, .error e)
        | .ok _ =>
          let loc := locate_binary w tp binary extensions
          let es0 := lockR.1 ++ loc.1 ++ LockGuard.drop
          match loc.2.1 with
          | Option.none =>
            match loc.2.2 with
            | [] =>
              (es0, .error (binary_not_found_msg command_name tc.1.name tp
                binary extensions))
            | e0 :: _ =>
              (es0, .error (str "Failed to find binary for command "
                ++ command_name ++ str " in tool " ++ tc.1.name ++ str ": " ++ e0))
          | Option.some binary_path =>
            let args := baseline_args ++ command_args
            let env := assemble_env w tc.1
            let duration := w.endTime - w.startTime
            let durEs :=
              if duration > 4 then [Effect.print (took_msg duration)] else []
            let failEs :=
              if w.exitCode ≠ 0 then
                [Effect.print (command_failed_msg command_name w.exitCode),
                 Effect.print (executed_command_msg binary_path args),
                 Effect.print (str "\tEnvironment:")]
                ++ env.map (fun p =>
                    Effect.print (str "\t\t" ++ p.key ++ str "=" ++ p.value))
              else []
            (es0 ++ [Effect.execute ⟨binary_path, args, env⟩] ++ durEs ++ failEs,
             .ok ())

/-- runner_initial.rs ToolToolRunnerInitial::run (the outer run loop): an Ok
inner result ends the process normally, an Err prints the error report and
exits with code 1.  The report rendering is abbreviated to its headline. -/
def ToolToolRunnerInitial.run (inner : List Effect × Except Str Unit) :
    List Effect :=
  match inner.2 with
  | .ok _ => inner.1
  | .error e =>
    inner.1 ++ [Effect.print (str "ERROR running tool-tool: " ++ e), Effect.exit 1]

/-- Statement helper: the string a registered substitution contributes to the
expansion output (restates the spec contract of one resolver-produced string
per substitution, for comparison with the expander). -/
def specRenderPart (replacer : Replacers) : TemplateStringPart → Str
  | .plainText t => t
  | .substitution sub =>
    match replacer sub.directive with
    | some r => r sub
    | none => []

/-- Statement helper: whether an effect trace touches the persisted checksum
ledger file. -/
def writes_ledger (es : List Effect) : Bool :=
  es.any fun e =>
    match e with
    | .createFile p => p = checksums_file_path
    | .writeFile p _ => p = checksums_file_path
    | _ => false

/-- Statement helper: whether an effect trace performs any download. -/
def has_download (es : List Effect) : Bool :=
  es.any fun e =>
    match e with
    | .downloadTo _ _ => true
    | _ => false

/-- Statement helper: whether an effect trace exits the process. -/
def has_exit (es : List Effect) : Bool :=
  es.any fun e =>
    match e with
    | .exit _ => true
    | _ => false

/-- Statement helper: the early-return condition of download_tool (an
artifact is selected, the ledger knows its url, and the sidecar marker file
exists with exactly the recorded digest). -/
def cache_hit (w : DownloadWorld) (checksums : Sha512Sums)
    (tool : ToolConfiguration) : Bool :=
  match selected_artifact w tool with
  | Option.some art =>
    match sumsGet checksums art.url with
    | Option.some d =>
      w.fileExists (checksum_path tool)
        && (w.fileContent (checksum_path tool) = d)
    | Option.none => false
  | Option.none => false

/-- Statement helper: every character of the string is a one-byte (ASCII)
character, so byte offsets and char indices coincide. -/
def allASCII (cs : Str) : Prop := ∀ c ∈ cs, c.utf8Size = 1

instance (cs : Str) : Decidable (allASCII cs) := by
  unfold allASCII; infer_instance

/-- Statement helper: the string contains no substitution opener (no dollar
character directly followed by an opening brace). -/
def no_substitution (cs : Str) : Prop :=
  ∀ i < cs.length, ¬(cs.get? i = some '$' ∧ cs.get? (i + 1) = some '\x7b')

instance (cs : Str) : Decidable (no_substitution cs) := by
  unfold no_substitution; infer_instance

instance {α β : Type} [DecidableEq α] [DecidableEq β] :
    DecidableEq (Except α β) := fun x y =>
  match x, y with
  | .ok a, .ok b => decidable_of_iff (a = b) (by simp)
  | .error a, .error b => decidable_of_iff (a = b) (by simp)
  | .error _, .ok _ => isFalse (fun h => Except.noConfusion h)
  | .ok _, .error _ => isFalse (fun h => Except.noConfusion h)

/-! Concrete fixtures used by the claim theorems. -/

/-- Fixture: a tool with one Windows artifact. -/
def fxTool1 : ToolConfiguration :=
  ⟨str "lsd", str "1.2.3", none, [(DownloadPlatform.Windows, ⟨str "uz"⟩)], [], []⟩

/-- Fixture: a one-tool configuration. -/
def fxCfg1 : ToolToolConfiguration := ⟨[fxTool1]⟩

/-- Fixture: ledger knowing digest d1 for the fixture url. -/
def fxSums1 : Sha512Sums := [(str "uz", str "d1")]

/-- Fixture world for the checksum-mismatch scenario: the cache directory of
the tool exists, the sidecar marker does not, and the fresh download hashes
to d2. -/
def fxW1 : DownloadWorld :=
  { platform := .Windows
    fileExists := fun p => p = tool_path fxTool1
    fileContent := fun _ => []
    urlContent := fun _ => str "bytes"
    hash := fun _ => str "d2"
    randomString := fun _ => str "r0"
    zipEntries := fun _ => []
    tarEntries := fun _ => [] }

/-- Fixture: a tool with artifacts for two platforms. -/
def fxToolC6 : ToolConfiguration :=
  ⟨str "lsd", str "1.2.3", none,
   [(DownloadPlatform.Linux, ⟨str "u1"⟩), (DownloadPlatform.Windows, ⟨str "u2"⟩)],
   [], []⟩

/-- Fixture: ledger knowing only the Linux artifact url of fxToolC6. -/
def fxSumsC6 : Sha512Sums := [(str "u1", str "d1")]

/-- Fixture: ledger knowing both artifact urls of fxToolC6. -/
def fxSumsC6b : Sha512Sums := [(str "u1", str "d1"), (str "u2", str "d2")]

/-- Fixture world for the idempotence scenario: host Linux, the sidecar
marker exists with the recorded digest d1. -/
def fxWC6 : DownloadWorld :=
  { platform := .Linux
    fileExists := fun p => p = checksum_path fxToolC6
    fileContent := fun p => if p = checksum_path fxToolC6 then str "d1" else []
    urlContent := fun _ => str "b2"
    hash := fun _ => str "h2"
    randomString := fun n => str "r" ++ natToStr n
    zipEntries := fun _ => []
    tarEntries := fun _ => [] }

/-- Fixture: destination directory for extraction scenarios. -/
def fxDest : Path := [str "dest"]

/-- Fixture: archive location for extraction scenarios. -/
def fxArchive : Path := [str "tmp", str "a"]

/-- Fixture: a tar entry whose relative path starts with two parent-directory
components. -/
def fxTarEvil : TarEntry :=
  ⟨false, [str "..", str "..", str "evil"], .Regular, str "boom"⟩

/-- Fixture: a zip entry whose raw path starts with two parent-directory
components. -/
def fxZipEvil : ZipEntry :=
  ⟨false, [str "..", str "..", str "evil"], false, str "boom"⟩

/-- Fixture: a well-behaved zip entry under a top-level wrapper directory. -/
def fxZipGood : ZipEntry :=
  ⟨false, [str "upper", str "foo"], false, str "bar"⟩

/-- Fixture: a tool owning the command tooly (binary tooly, env pair). -/
def fxToolC4 : ToolConfiguration :=
  ⟨str "lsd", str "1.2.3", none, [],
   [⟨str "tooly", str "tooly", []⟩],
   [⟨str "FROBNIZZ", str "nizzle"⟩]⟩

/-- Fixture: configuration owning the tooly command. -/
def fxCfgC4 : ToolToolConfiguration := ⟨[fxToolC4]⟩

/-- Fixture executor world: Windows host, command tooly resolving to
tooly.exe in the tool cache directory, child exit code 19. -/
def fxWC4 : RunWorld :=
  { args := [str "tt", str "tooly"]
    platform := .Windows
    hostEnv := []
    shellish := fun s => .ok [s]
    fileExists := fun p => .ok (p = tool_path fxToolC4 ++ [str "tooly.exe"])
    tryLockResult := fun _ => true
    exitCode := 19
    startTime := 0
    endTime := 0 }

/-- Fixture: try-lock results failing exactly three times and then
succeeding. -/
def fxTry3 : Nat → Bool := fun i => decide (3 ≤ i)

/-- Claim C1, counterexample: with ledger digest d1 for the selected url and
a fresh download hashing to d2, the run fails with the checksum-mismatch
error reporting both digests, BUT the existing cache directory of the tool
has already been deleted (and recreated empty) by the failing run, so the
cache directory is not left unmutated as the claim states. -/
theorem C1_counterexample :
    (run_download_task fxW1 [fxTool1] fxSums1).2
      = .error (checksum_mismatch_msg (str "lsd") (str "d1") (str "d2")) ∧
    Effect.deleteDir (tool_path fxTool1) ∈ (run_download_task fxW1 [fxTool1] fxSums1).1 ∧
    Effect.createDir (tool_path fxTool1) ∈ (run_download_task fxW1 [fxTool1] fxSums1).1 := by
  decide

/-- Claim C2, counterexample: the dir directive for the fixture tool yields
the platform-suffixed path, while the acquisition pipeline and the executor
use the cache directory named only by name and version; the two differ. -/
theorem C2_counterexample :
    ((create_expander 0 fxCfg1 .Linux [] (str "dir")).map
        (fun r => r ⟨str "dir", [str "lsd"]⟩))
      = some (.ok (str ".tool-tool/v2/cache/lsd-1.2.3-linux")) ∧
    pathToStr (tool_path fxTool1) = str ".tool-tool/v2/cache/lsd-1.2.3" ∧
    ¬ str ".tool-tool/v2/cache/lsd-1.2.3-linux" = pathToStr (tool_path fxTool1) := by
  decide

/-- Claim C3 (code bug): extraction strips exactly one leading component and
the zip side skips invalid names, but the tar side only rejects absolute
paths; a tar entry with two leading parent-directory components is written to
a path that resolves outside the destination directory (the source carries an
explicit TODO for this missing check).  The last conjunct shows the normal
one-component-strip write for a well-behaved zip entry. -/
theorem C3_extraction_path_bug :
    (extract_targz [fxTarEvil] fxArchive fxDest).2 = .ok () ∧
    Effect.writeFile (fxDest ++ [str "..", str "evil"]) (str "boom")
      ∈ (extract_targz [fxTarEvil] fxArchive fxDest).1 ∧
    escapesRel [str "..", str "evil"] = true ∧
    (extract_zip [fxZipEvil] fxArchive fxDest).1 = [Effect.readFile fxArchive] ∧
    (extract_zip [fxZipGood] fxArchive fxDest).1 =
      [Effect.readFile fxArchive, Effect.createDir fxDest,
       Effect.createFile (fxDest ++ [str "foo"]),
       Effect.writeFile (fxDest ++ [str "foo"]) (str "bar")] := by
  decide

/-- Claim C4, counterexample: with a child exit code of 19 the executor
prints the failure diagnostics but returns Ok, so the outer run loop sees
success and the process does not exit with a non-zero code mirroring the
child. -/
theorem C4_counterexample :
    (run_command fxWC4 fxCfgC4).2 = .ok () ∧
    Effect.print (command_failed_msg (str "tooly") 19) ∈ (run_command fxWC4 fxCfgC4).1 ∧
    ToolToolRunnerInitial.run (run_command fxWC4 fxCfgC4) = (run_command fxWC4 fxCfgC4).1 ∧
    has_exit (ToolToolRunnerInitial.run (run_command fxWC4 fxCfgC4)) = false := by
  decide

/-- Claim C6, counterexample: the fixture tool has a valid cache (sidecar
marker matching the ledger digest of the selected Linux artifact), yet
re-running acquisition downloads the Windows artifact of that same tool in
the checksum-completion pass and rewrites the ledger. -/
theorem C6_counterexample :
    cache_hit fxWC6 fxSumsC6 fxToolC6 = true ∧
    has_download (run_download_task fxWC6 [fxToolC6] fxSumsC6).1 = true ∧
    writes_ledger (run_download_task fxWC6 [fxToolC6] fxSumsC6).1 = true ∧
    (run_download_task fxWC6 [fxToolC6] fxSumsC6).2
      = .ok (sumsInsert fxSumsC6 (str "u2") (str "h2")) ∧
    ¬ sumsInsert fxSumsC6 (str "u2") (str "h2") = fxSumsC6 := by
  decide

/-- Claim C10, counterexample: parsing is not total; on a non-ASCII input the
parser indexes the char vector with a byte offset and panics (modelled as
none) instead of returning Ok. -/
theorem C10_totality_counterexample :
    TemplateString.try_from (str "ü") = none := by
  decide

/-- Statement helper: every substitution segment of the part list has a
registered replacer. -/
def all_registered (replacer : Replacers) (parts : List TemplateStringPart) : Bool :=
  parts.all fun p =>
    match p with
    | .substitution sub => (replacer sub.directive).isSome
    | .plainText _ => true

/-- When every directive is registered, expansion concatenates, in source
order, literal segments verbatim and one replacer output per substitution
segment. -/
theorem expandParts_ok_of_registered (replacer : Replacers) :
    ∀ parts : List TemplateStringPart,
      all_registered replacer parts = true →
      expandParts replacer parts
        = .ok ((parts.map (specRenderPart replacer)).flatten) := by
  intro parts
  induction parts with
  | nil => intro _; simp [expandParts]
  | cons p rest ih =>
    intro h
    simp only [all_registered, List.all_cons, Bool.and_eq_true] at h
    cases p with
    | plainText t =>
      have hr := ih h.2
      simp [expandParts, hr, specRenderPart, Except.map]
    | substitution sub =>
      obtain ⟨r, hr⟩ := Option.isSome_iff_exists.mp h.1
      have hrec := ih h.2
      simp [expandParts, hr, hrec, specRenderPart, Except.map]

/-- When expansion succeeds, every substitution segment had a registered
replacer. -/
theorem registered_of_expandParts_isOk (replacer : Replacers) :
    ∀ parts : List TemplateStringPart,
      (expandParts replacer parts).isOk = true →
      all_registered replacer parts = true := by
  intro parts
  induction parts with
  | nil => intro _; simp [all_registered]
  | cons p rest ih =>
    intro hok
    cases p with
    | plainText t =>
      simp only [expandParts] at hok
      have hrest : (expandParts replacer rest).isOk = true := by
        cases hrec : expandParts replacer rest <;>
          simp [hrec, Except.map, Except.isOk, Except.toBool] at hok ⊢
      have hall := ih hrest
      simp only [all_registered, List.all_cons, Bool.and_eq_true]
      exact ⟨trivial, hall⟩
    | substitution sub =>
      simp only [expandParts] at hok
      cases hrep : replacer sub.directive with
      | none => rw [hrep] at hok; simp [Except.isOk, Except.toBool] at hok
      | some r =>
        rw [hrep] at hok
        have hrest : (expandParts replacer rest).isOk = true := by
          cases hrec : expandParts replacer rest <;>
            simp [hrec, Except.map, Except.isOk, Except.toBool] at hok ⊢
        have hall := ih hrest
        simp only [all_registered, List.all_cons, Bool.and_eq_true]
        exact ⟨by simp [hrep], hall⟩

/-- Claim C8: TemplateExpander::expand succeeds exactly when every
substitution segment names a registered directive (an unregistered one is the
only error source in this expander), and on success the output is the
in-order concatenation of literal segments and exactly one replacer-produced
string per substitution segment. -/
theorem C8_expand_contract (replacer : Replacers) (t : TemplateString) :
    ((TemplateExpander.expand replacer t).isOk = true ↔
      all_registered replacer t.parts = true) ∧
    (all_registered replacer t.parts = true →
      TemplateExpander.expand replacer t
        = .ok ((t.parts.map (specRenderPart replacer)).flatten)) := by
  constructor
  · constructor
    · exact registered_of_expandParts_isOk replacer t.parts
    · intro h
      rw [TemplateExpander.expand, expandParts_ok_of_registered replacer t.parts h]
      rfl
  · intro h
    exact expandParts_ok_of_registered replacer t.parts h

/-- Fixture replacer registry with a single directive v. -/
def fxReplacers : Replacers := fun key =>
  if key = str "v" then some (fun _ => str "1.0.0") else none

/-- Fixture template: a literal and one v substitution. -/
def fxTemplate : TemplateString :=
  ⟨[TemplateStringPart.plainText (str "foo"),
    TemplateStringPart.substitution ⟨str "v", [[]]⟩]⟩

/-- Witness for C8: on a concrete registry and template with all directives
registered, expansion returns the concatenation. -/
theorem C8_expand_contract_witness :
    all_registered fxReplacers fxTemplate.parts = true ∧
    TemplateExpander.expand fxReplacers fxTemplate
      = .ok ((fxTemplate.parts.map (specRenderPart fxReplacers)).flatten) :=
  ⟨by decide, (C8_expand_contract fxReplacers fxTemplate).2 (by decide)⟩

/-- In the configuration expander registry, the key of each supported
platform maps to the replacer of that platform. -/
theorem create_expander_platform_lookup (fuel : Nat)
    (config : ToolToolConfiguration) (host : DownloadPlatform)
    (envList : List (Str × Str)) (p : DownloadPlatform) :
    create_expander fuel config host envList p.as_str
      = some (platformReplacer p host) := by
  cases p <;> rfl

/-- The platform replacer yields the first argument unchanged on the host
platform and the empty string on every other platform. -/
theorem platformReplacer_spec (p host : DownloadPlatform)
    (sub : TemplateStringSubstitution) (a : Str) (rest : List Str)
    (h : sub.arguments = a :: rest) :
    platformReplacer p host sub = .ok (if p = host then a else []) := by
  unfold platformReplacer
  by_cases hp : p = host
  · simp [hp, h]
  · simp [hp]

/-- Claim C7: a platform directive expands to its single argument exactly
when its platform is the active host platform and to the empty string
otherwise; in particular the scenario template expands to bin/lsd on Linux
and to /lsd.exe on Windows. -/
theorem C7_platform_directive :
    (∀ (fuel : Nat) (config : ToolToolConfiguration) (envList : List (Str × Str))
        (p host : DownloadPlatform) (sub : TemplateStringSubstitution)
        (a : Str) (rest : List Str),
      sub.arguments = a :: rest →
      ((create_expander fuel config host envList p.as_str).map (fun r => r sub))
        = some (.ok (if p = host then a else []))) ∧
    expandRaw (create_expander 0 fxCfg1 .Linux [])
        (str "$\x7blinux:bin\x7d/lsd$\x7bwindows:.exe\x7d")
      = .ok (str "bin/lsd") ∧
    expandRaw (create_expander 0 fxCfg1 .Windows [])
        (str "$\x7blinux:bin\x7d/lsd$\x7bwindows:.exe\x7d")
      = .ok (str "/lsd.exe") := by
  refine ⟨?_, by decide, by decide⟩
  intro fuel config envList p host sub a rest h
  rw [create_expander_platform_lookup]
  simp [Option.map, platformReplacer_spec p host sub a rest h]

/-- Witness for C7: the general platform-directive law applied to the linux
directive with argument bin, on host Linux and on host Windows. -/
theorem C7_platform_directive_witness :
    ((create_expander 0 fxCfg1 DownloadPlatform.Linux []
        (DownloadPlatform.Linux).as_str).map
          (fun r => r ⟨str "linux", [str "bin"]⟩))
      = some (.ok (if DownloadPlatform.Linux = DownloadPlatform.Linux
          then str "bin" else [])) ∧
    ((create_expander 0 fxCfg1 DownloadPlatform.Windows []
        (DownloadPlatform.Linux).as_str).map
          (fun r => r ⟨str "linux", [str "bin"]⟩))
      = some (.ok (if DownloadPlatform.Linux = DownloadPlatform.Windows
          then str "bin" else [])) :=
  ⟨C7_platform_directive.1 0 fxCfg1 [] .Linux .Linux ⟨str "linux", [str "bin"]⟩
      (str "bin") [] rfl,
   C7_platform_directive.1 0 fxCfg1 [] .Linux .Windows ⟨str "linux", [str "bin"]⟩
      (str "bin") [] rfl⟩

/-- In the configuration expander registry, the dir key maps to the dir
replacer over the configuration snapshot the expander was built from. -/
theorem create_expander_dir_lookup (fuel : Nat)
    (config : ToolToolConfiguration) (host : DownloadPlatform)
    (envList : List (Str × Str)) :
    create_expander fuel config host envList (str "dir")
      = some (dirReplacer config host) := rfl

/-- The dir replacer output for a resolvable tool name. -/
theorem dirReplacer_spec (config : ToolToolConfiguration)
    (host : DownloadPlatform) (sub : TemplateStringSubstitution)
    (toolName : Str) (rest : List Str) (tool : ToolConfiguration)
    (hargs : sub.arguments = toolName :: rest)
    (hfind : config.tools.find? (fun t => t.name = toolName) = some tool) :
    dirReplacer config host sub
      = .ok (str ".tool-tool/v2/cache/" ++ tool.name ++ str "-" ++ tool.version
          ++ str "-" ++ host.as_str) := by
  unfold dirReplacer
  rw [hargs]
  simp [hfind]

/-- Fusing the slash-joined cache directory components into the literal
prefix the dir replacer hard-codes. -/
theorem cache_prefix_fuse (X : Str) :
    str ".tool-tool" ++ (str "/" ++ (str "v2" ++ (str "/" ++ (str "cache"
        ++ (str "/" ++ X)))))
      = str ".tool-tool/v2/cache/" ++ X := by
  have h : str ".tool-tool" ++ (str "/" ++ (str "v2" ++ (str "/"
      ++ (str "cache" ++ str "/")))) = str ".tool-tool/v2/cache/" := by decide
  rw [← h]
  simp [List.append_assoc]

/-- The rendered cache directory path of a tool. -/
theorem pathToStr_tool_path (tool : ToolConfiguration) :
    pathToStr (tool_path tool)
      = str ".tool-tool/v2/cache/" ++ (tool.name ++ (str "-" ++ tool.version)) := by
  have := cache_prefix_fuse (tool.name ++ (str "-" ++ tool.version))
  simp only [tool_path, cache_dir, pathToStr]
  simpa [List.append_assoc] using this

/-- Claim C2, amended: the cache directory path is a pure function of the
tool name and version, but the dir directive yields that path with an
additional non-empty host-platform suffix, hence NOT the path the
acquisition pipeline populates and the executor searches (it does use the
original configuration snapshot). -/
theorem C2_amended (fuel : Nat) (config : ToolToolConfiguration)
    (host : DownloadPlatform) (envList : List (Str × Str))
    (sub : TemplateStringSubstitution) (toolName : Str) (rest : List Str)
    (tool : ToolConfiguration)
    (hargs : sub.arguments = toolName :: rest)
    (hfind : config.tools.find? (fun t => t.name = toolName) = some tool) :
    ((create_expander fuel config host envList (str "dir")).map (fun r => r sub))
      = some (.ok (pathToStr (tool_path tool) ++ str "-" ++ host.as_str)) ∧
    (∀ t1 t2 : ToolConfiguration, t1.name = t2.name → t1.version = t2.version →
      tool_path t1 = tool_path t2) ∧
    ¬ host.as_str = [] := by
  refine ⟨?_, ?_, ?_⟩
  · rw [create_expander_dir_lookup]
    simp only [Option.map]
    rw [dirReplacer_spec config host sub toolName rest tool hargs hfind,
      pathToStr_tool_path]
    simp [List.append_assoc]
  · intro t1 t2 h1 h2
    simp [tool_path, h1, h2]
  · cases host <;> simp [DownloadPlatform.as_str, str]

/-- Witness for C2: the amended statement at the fixture configuration, tool
lsd 1.2.3 on host Linux. -/
theorem C2_amended_witness :
    ((create_expander 0 fxCfg1 DownloadPlatform.Linux [] (str "dir")).map
        (fun r => r ⟨str "dir", [str "lsd"]⟩))
      = some (.ok (pathToStr (tool_path fxTool1) ++ str "-"
          ++ (DownloadPlatform.Linux).as_str)) ∧
    (∀ t1 t2 : ToolConfiguration, t1.name = t2.name → t1.version = t2.version →
      tool_path t1 = tool_path t2) ∧
    ¬ (DownloadPlatform.Linux).as_str = [] :=
  C2_amended 0 fxCfg1 .Linux [] ⟨str "dir", [str "lsd"]⟩ (str "lsd") []
    fxTool1 rfl (by decide)

/-- download_tool returns before any download when the ledger digest of the
selected artifact matches the sidecar marker: the only effects are the marker
existence check and read, and the digest map is untouched. -/
theorem download_tool_cache_hit (w : DownloadWorld) (checksums : Sha512Sums)
    (tool : ToolConfiguration) (new : Sha512Sums) (idx : Nat)
    (h : cache_hit w checksums tool = true) :
    download_tool w checksums tool new idx
      = ([Effect.fileExistsQ (checksum_path tool),
          Effect.readFile (checksum_path tool)], .ok (new, idx)) := by
  unfold cache_hit at h
  cases hsel : selected_artifact w tool with
  | none => simp [hsel] at h
  | some art =>
    simp only [hsel] at h
    cases hget : sumsGet checksums art.url with
    | none => simp [hget] at h
    | some d =>
      simp only [hget, Bool.and_eq_true] at h
      unfold download_tool
      rw [hsel]
      simp [hget, h.1, h.2]

/-- The first pass of run_download_task over tools that all hit the cache:
only marker checks, no state change. -/
theorem download_tool_fold_hits (w : DownloadWorld) (checksums : Sha512Sums) :
    ∀ (tools : List ToolConfiguration) (new : Sha512Sums) (idx : Nat),
      (∀ tool ∈ tools, cache_hit w checksums tool = true) →
      download_tool_fold w checksums tools new idx
        = ((tools.map (fun t => [Effect.fileExistsQ (checksum_path t),
            Effect.readFile (checksum_path t)])).flatten, .ok (new, idx)) := by
  intro tools
  induction tools with
  | nil => intro new idx _; simp [download_tool_fold]
  | cons tool rest ih =>
    intro new idx h
    have h0 := download_tool_cache_hit w checksums tool new idx
      (h tool (List.mem_cons_self _ _))
    have hr := ih new idx (fun t ht => h t (List.mem_cons_of_mem _ ht))
    simp [download_tool_fold, h0, hr]

/-- The checksum-completion pass over one tool does nothing when every
declared url is already known. -/
theorem checksum_fill_tool_complete (w : DownloadWorld)
    (tool : ToolConfiguration) :
    ∀ (urls : List (DownloadPlatform × DownloadArtifact)) (new : Sha512Sums)
      (idx : Nat),
      (∀ pa ∈ urls, sumsContains new pa.2.url = true) →
      checksum_fill_tool w tool urls new idx = ([], new, idx) := by
  intro urls
  induction urls with
  | nil => intro new idx _; simp [checksum_fill_tool]
  | cons pa rest ih =>
    intro new idx h
    have h0 := h pa (List.mem_cons_self _ _)
    have hr := ih new idx (fun q hq => h q (List.mem_cons_of_mem _ hq))
    simp [checksum_fill_tool, h0, hr]

/-- The checksum-completion pass does nothing when every declared url of
every tool is already known. -/
theorem checksum_fill_complete (w : DownloadWorld) :
    ∀ (tools : List ToolConfiguration) (new : Sha512Sums) (idx : Nat),
      (∀ tool ∈ tools, ∀ pa ∈ tool.download_urls,
        sumsContains new pa.2.url = true) →
      checksum_fill w tools new idx = ([], new, idx) := by
  intro tools
  induction tools with
  | nil => intro new idx _; simp [checksum_fill]
  | cons tool rest ih =>
    intro new idx h
    have h0 := checksum_fill_tool_complete w tool tool.download_urls new idx
      (h tool (List.mem_cons_self _ _))
    have hr := ih new idx (fun t ht => h t (List.mem_cons_of_mem _ ht))
    simp [checksum_fill, h0, hr]

/-- The marker-check effect lists contain neither downloads nor ledger
writes. -/
theorem marker_effects_clean (tools : List ToolConfiguration) :
    has_download ((tools.map (fun t => [Effect.fileExistsQ (checksum_path t),
        Effect.readFile (checksum_path t)])).flatten) = false ∧
    writes_ledger ((tools.map (fun t => [Effect.fileExistsQ (checksum_path t),
        Effect.readFile (checksum_path t)])).flatten) = false := by
  induction tools with
  | nil => simp [has_download, writes_ledger]
  | cons tool rest ih =>
    simp [has_download, writes_ledger, List.any_append]

/-- Claim C6, amended: when every tool hits the cache (sidecar marker equal
to the recorded ledger digest of its selected artifact) AND every declared
artifact url of every tool is already in the ledger, re-running acquisition
performs zero downloads, zero extraction operations and no ledger write:
the whole run consists of the per-tool marker checks and returns the ledger
unchanged.  (Without the second condition, the checksum-completion pass still
downloads the missing-platform artifacts, as the counterexample shows.) -/
theorem C6_amended (w : DownloadWorld) (tools : List ToolConfiguration)
    (checksums : Sha512Sums)
    (hhit : ∀ tool ∈ tools, cache_hit w checksums tool = true)
    (hall : ∀ tool ∈ tools, ∀ pa ∈ tool.download_urls,
      sumsContains checksums pa.2.url = true) :
    run_download_task w tools checksums
      = ((tools.map (fun t => [Effect.fileExistsQ (checksum_path t),
          Effect.readFile (checksum_path t)])).flatten, .ok checksums) ∧
    has_download (run_download_task w tools checksums).1 = false ∧
    writes_ledger (run_download_task w tools checksums).1 = false := by
  have h1 := download_tool_fold_hits w checksums tools checksums 0 hhit
  have h2 := checksum_fill_complete w tools checksums 0 hall
  have hmain : run_download_task w tools checksums
      = ((tools.map (fun t => [Effect.fileExistsQ (checksum_path t),
          Effect.readFile (checksum_path t)])).flatten, .ok checksums) := by
    simp [run_download_task, h1, h2]
  refine ⟨hmain, ?_, ?_⟩
  · rw [hmain]
    exact (marker_effects_clean tools).1
  · rw [hmain]
    exact (marker_effects_clean tools).2

/-- Witness for C6: the amended statement at the fixture tool whose ledger
also records the Windows artifact digest. -/
theorem C6_amended_witness :
    run_download_task fxWC6 [fxToolC6] fxSumsC6b
      = (([fxToolC6].map (fun t => [Effect.fileExistsQ (checksum_path t),
          Effect.readFile (checksum_path t)])).flatten, .ok fxSumsC6b) ∧
    has_download (run_download_task fxWC6 [fxToolC6] fxSumsC6b).1 = false ∧
    writes_ledger (run_download_task fxWC6 [fxToolC6] fxSumsC6b).1 = false :=
  C6_amended fxWC6 [fxToolC6] fxSumsC6b (by decide) (by decide)

/-- download_tool on a ledger-known url whose fresh download hashes to a
different digest: the run fails with the mismatch error reporting the
expected and actual digests, writes nothing to the ledger file or the
sidecar marker, but has already deleted the existing cache directory. -/
theorem download_tool_mismatch (w : DownloadWorld) (checksums : Sha512Sums)
    (tool : ToolConfiguration) (new : Sha512Sums) (idx : Nat)
    (art : DownloadArtifact) (d1 : Str)
    (hsel : selected_artifact w tool = some art)
    (hd1 : sumsGet checksums art.url = some d1)
    (hmiss : cache_hit w checksums tool = false)
    (hhash : ¬ w.hash (w.urlContent art.url) = d1) :
    (download_tool w checksums tool new idx).2
      = .error (checksum_mismatch_msg tool.name d1
          (w.hash (w.urlContent art.url))) ∧
    writes_ledger (download_tool w checksums tool new idx).1 = false ∧
    (w.fileExists (tool_path tool) = true →
      Effect.deleteDir (tool_path tool) ∈ (download_tool w checksums tool new idx).1) := by
  have hm : (w.fileExists (checksum_path tool)
      && decide (w.fileContent (checksum_path tool) = d1)) = false := by
    unfold cache_hit at hmiss
    simpa [hsel, hd1] using hmiss
  unfold download_tool
  rw [hsel]
  simp only [hd1]
  by_cases hcp : w.fileExists (checksum_path tool)
  · have hdec : decide (w.fileContent (checksum_path tool) = d1) = false := by
      rw [hcp] at hm
      simpa using hm
    simp only [hcp, hdec]
    by_cases hte : w.fileExists (temp_dir_path tool (w.randomString idx)) <;>
      by_cases htp : w.fileExists (tool_path tool) <;>
        simp [hte, htp, hhash, writes_ledger, checksum_mismatch_msg]
  · simp only [hcp]
    by_cases hte : w.fileExists (temp_dir_path tool (w.randomString idx)) <;>
      by_cases htp : w.fileExists (tool_path tool) <;>
        simp [hte, htp, hhash, writes_ledger, checksum_mismatch_msg]

/-- Claim C1, amended: a run whose fresh download mismatches the recorded
digest fails with the checksum-mismatch error reporting both the expected
and the actual digest, and performs no ledger write (the ledger file is
unchanged); but the cache directory is NOT left unmutated: when it existed it
has been deleted (and recreated empty) before the download. -/
theorem C1_amended (w : DownloadWorld) (checksums : Sha512Sums)
    (tool : ToolConfiguration) (art : DownloadArtifact) (d1 : Str)
    (hsel : selected_artifact w tool = some art)
    (hd1 : sumsGet checksums art.url = some d1)
    (hmiss : cache_hit w checksums tool = false)
    (hhash : ¬ w.hash (w.urlContent art.url) = d1) :
    (run_download_task w [tool] checksums).2
      = .error (checksum_mismatch_msg tool.name d1
          (w.hash (w.urlContent art.url))) ∧
    writes_ledger (run_download_task w [tool] checksums).1 = false ∧
    (w.fileExists (tool_path tool) = true →
      Effect.deleteDir (tool_path tool) ∈ (run_download_task w [tool] checksums).1) := by
  have hm := download_tool_mismatch w checksums tool checksums 0 art d1
    hsel hd1 hmiss hhash
  have hfold : download_tool_fold w checksums [tool] checksums 0
      = ((download_tool w checksums tool checksums 0).1,
         .error (checksum_mismatch_msg tool.name d1
           (w.hash (w.urlContent art.url)))) := by
    simp [download_tool_fold, hm.1]
  have hrun : run_download_task w [tool] checksums
      = ((download_tool w checksums tool checksums 0).1,
         .error (checksum_mismatch_msg tool.name d1
           (w.hash (w.urlContent art.url)))) := by
    simp [run_download_task, hfold]
  rw [hrun]
  exact ⟨rfl, hm.2.1, hm.2.2⟩

/-- Witness for C1: the amended statement at the fixture world where the
cache directory exists, the ledger records d1 and the download hashes
to d2. -/
theorem C1_amended_witness :
    (run_download_task fxW1 [fxTool1] fxSums1).2
      = .error (checksum_mismatch_msg (fxTool1).name (str "d1")
          (fxW1.hash (fxW1.urlContent (str "uz")))) ∧
    writes_ledger (run_download_task fxW1 [fxTool1] fxSums1).1 = false ∧
    (fxW1.fileExists (tool_path fxTool1) = true →
      Effect.deleteDir (tool_path fxTool1)
        ∈ (run_download_task fxW1 [fxTool1] fxSums1).1) :=
  C1_amended fxW1 fxSums1 fxTool1 ⟨str "uz"⟩ (str "d1") (by decide) (by decide)
    (by decide) (by decide)

/-- The lock retry loop never emits a process-exit effect. -/
theorem lockLoop_no_exit (t : Nat → Bool) :
    ∀ (remaining attempt : Nat) (hM : Bool),
      has_exit (lockLoop t attempt remaining hM).1 = false := by
  intro remaining
  induction remaining with
  | zero => intro attempt hM; simp [lockLoop, has_exit]
  | succ r ih =>
    intro attempt hM
    by_cases h : t attempt
    · simp [lockLoop, h, has_exit]
    · have := ih (attempt + 1) true
      cases hM <;>
        simp [lockLoop, h, has_exit, List.any_append] <;>
          simpa [has_exit] using this

/-- The binary location loop never emits a process-exit effect. -/
theorem locate_binary_no_exit (w : RunWorld) (tp : Path) (binary : Str) :
    ∀ exts : List Str, has_exit (locate_binary w tp binary exts).1 = false := by
  intro exts
  induction exts with
  | nil => simp [locate_binary, has_exit]
  | cons ext rest ih =>
    cases h : w.fileExists (tp ++ [binary ++ ext]) with
    | ok b =>
      cases b
      · simp only [locate_binary, h]
        simpa [has_exit] using ih
      · simp [locate_binary, h, has_exit]
    | error e =>
      simp only [locate_binary, h]
      simpa [has_exit] using ih

/-- Claim C4, amended: when the child exit code is non-zero the executor
prints the failing command name with the exit code, the fully resolved
invocation, and every assembled environment pair, BUT run_command returns
Ok, so no failure is propagated: the outer run loop adds nothing and the
whole run emits no process-exit effect (the engine exit code does not mirror
that of the child). -/
theorem C4_amended (w : RunWorld) (config : ToolToolConfiguration)
    (binName command_name : Str) (rest : List Str)
    (tc : ToolConfiguration × Command) (binary : Str) (baseline : List Str)
    (bp : Path)
    (hargs : w.args = binName :: command_name :: rest)
    (hcmd : find_command command_name config = .ok tc)
    (htok : w.shellish tc.2.command_string = .ok (binary :: baseline))
    (hlock : (LockGuard.new w.tryLockResult).2 = .ok ())
    (hloc : (locate_binary w (tool_path tc.1) binary
        w.platform.get_executable_extensions).2.1 = some bp)
    (hexit : ¬ w.exitCode = 0) :
    (run_command w config).2 = .ok () ∧
    Effect.print (command_failed_msg command_name w.exitCode)
      ∈ (run_command w config).1 ∧
    Effect.print (executed_command_msg bp (baseline ++ rest))
      ∈ (run_command w config).1 ∧
    Effect.print (str "\tEnvironment:") ∈ (run_command w config).1 ∧
    (∀ p ∈ assemble_env w tc.1,
      Effect.print (str "\t\t" ++ p.key ++ str "=" ++ p.value)
        ∈ (run_command w config).1) ∧
    ToolToolRunnerInitial.run (run_command w config) = (run_command w config).1 ∧
    has_exit (ToolToolRunnerInitial.run (run_command w config)) = false := by
  have hrc : run_command w config
      = ((LockGuard.new w.tryLockResult).1
          ++ (locate_binary w (tool_path tc.1) binary
              w.platform.get_executable_extensions).1
          ++ LockGuard.drop
          ++ [Effect.execute ⟨bp, baseline ++ rest, assemble_env w tc.1⟩]
          ++ (if w.endTime - w.startTime > 4
              then [Effect.print (took_msg (w.endTime - w.startTime))] else [])
          ++ ([Effect.print (command_failed_msg command_name w.exitCode),
               Effect.print (executed_command_msg bp (baseline ++ rest)),
               Effect.print (str "\tEnvironment:")]
              ++ (assemble_env w tc.1).map (fun p =>
                  Effect.print (str "\t\t" ++ p.key ++ str "=" ++ p.value))),
         .ok ()) := by
    unfold run_command
    rw [hargs]
    simp only [hcmd, htok, hlock, hloc, hexit]
    simp [List.append_assoc, hexit]
  rw [hrc]
  refine ⟨rfl, ?_, ?_, ?_, ?_, rfl, ?_⟩
  · simp
  · simp
  · simp
  · intro p hp
    exact List.mem_append.mpr (Or.inr (List.mem_append.mpr
      (Or.inr (List.mem_map_of_mem _ hp))))
  · have h1 := lockLoop_no_exit w.tryLockResult 60 0 false
    have h2 := locate_binary_no_exit w (tool_path tc.1) binary
      w.platform.get_executable_extensions
    simp only [ToolToolRunnerInitial.run]
    simp only [has_exit, List.any_append, Bool.or_eq_false_iff] at h1 h2 ⊢
    refine ⟨⟨⟨⟨⟨?_, ?_⟩, ?_⟩, ?_⟩, ?_⟩, ?_⟩
    · simpa [LockGuard.new] using h1
    · exact h2
    · simp [LockGuard.drop]
    · simp
    · split <;> simp
    · simp

/-- Witness for C4: the amended statement at the fixture executor world with
child exit code 19. -/
theorem C4_amended_witness :
    (run_command fxWC4 fxCfgC4).2 = .ok () ∧
    Effect.print (command_failed_msg (str "tooly") (fxWC4).exitCode)
      ∈ (run_command fxWC4 fxCfgC4).1 ∧
    Effect.print (executed_command_msg (tool_path fxToolC4 ++ [str "tooly.exe"])
        ([] ++ []))
      ∈ (run_command fxWC4 fxCfgC4).1 ∧
    Effect.print (str "\tEnvironment:") ∈ (run_command fxWC4 fxCfgC4).1 ∧
    (∀ p ∈ assemble_env fxWC4 fxToolC4,
      Effect.print (str "\t\t" ++ p.key ++ str "=" ++ p.value)
        ∈ (run_command fxWC4 fxCfgC4).1) ∧
    ToolToolRunnerInitial.run (run_command fxWC4 fxCfgC4)
      = (run_command fxWC4 fxCfgC4).1 ∧
    has_exit (ToolToolRunnerInitial.run (run_command fxWC4 fxCfgC4)) = false :=
  C4_amended fxWC4 fxCfgC4 (str "tt") (str "tooly") []
    ((fxToolC4, ⟨str "tooly", str "tooly", []⟩) : ToolConfiguration × Command)
    (str "tooly") [] (tool_path fxToolC4 ++ [str "tooly.exe"])
    rfl (by decide) (by decide) (by decide) (by decide) (by decide)

/-- On an all-ASCII string the byte length equals the character count. -/
theorem utf8Len_ascii : ∀ cs : Str, allASCII cs → utf8Len cs = cs.length := by
  intro cs
  induction cs with
  | nil => intro _; rfl
  | cons c s ih =>
    intro h
    have hc : c.utf8Size = 1 := h c (List.mem_cons_self _ _)
    have hs : allASCII s := fun x hx => h x (List.mem_cons_of_mem _ hx)
    simp [utf8Len, hc, ih hs]
    omega

/-- On an all-ASCII string, dropping by a byte offset within range drops that
many characters. -/
theorem byteDrop_ascii : ∀ (cs : Str), allASCII cs → ∀ n, n ≤ cs.length →
    byteDrop cs n = some (cs.drop n) := by
  intro cs
  induction cs with
  | nil =>
    intro _ n hn
    have : n = 0 := by simpa using hn
    subst this
    rfl
  | cons c s ih =>
    intro h n hn
    have hc : c.utf8Size = 1 := h c (List.mem_cons_self _ _)
    have hs : allASCII s := fun x hx => h x (List.mem_cons_of_mem _ hx)
    cases n with
    | zero => rfl
    | succ m =>
      have hm : m ≤ s.length := by simpa using hn
      simp [byteDrop, hc, ih hs m hm]

/-- On an all-ASCII string, taking by a byte offset within range takes that
many characters. -/
theorem byteTake_ascii : ∀ (cs : Str), allASCII cs → ∀ n, n ≤ cs.length →
    byteTake cs n = some (cs.take n) := by
  intro cs
  induction cs with
  | nil =>
    intro _ n hn
    have : n = 0 := by simpa using hn
    subst this
    rfl
  | cons c s ih =>
    intro h n hn
    have hc : c.utf8Size = 1 := h c (List.mem_cons_self _ _)
    have hs : allASCII s := fun x hx => h x (List.mem_cons_of_mem _ hx)
    cases n with
    | zero => rfl
    | succ m =>
      have hm : m ≤ s.length := by simpa using hn
      simp [byteTake, hc, ih hs m hm]

/-- Dropping preserves the all-ASCII property. -/
theorem allASCII_drop (cs : Str) (h : allASCII cs) (n : Nat) :
    allASCII (cs.drop n) :=
  fun c hc => h c (List.mem_of_mem_drop hc)

/-- On an all-ASCII string a byte slice within range yields the
corresponding character range. -/
theorem byteSlice_ascii (cs : Str) (hA : allASCII cs) (a b : Nat)
    (hab : a ≤ b) (hb : b ≤ cs.length) :
    byteSlice cs a b = some ((cs.drop a).take (b - a)) := by
  unfold byteSlice
  rw [byteDrop_ascii cs hA a (le_trans hab hb)]
  rw [Option.some_bind]
  exact byteTake_ascii (cs.drop a) (allASCII_drop cs hA a) (b - a)
    (by simp [List.length_drop]; omega)

/-- The parser loop at a position past the end with nothing pending returns
the accumulated parts. -/
theorem parseLoopF_done (s : Str) (fuel p : Nat) (parts : List TemplateStringPart)
    (hf : 0 < fuel) (hp : ¬ p < utf8Len s) :
    parseLoopF fuel s p p parts = some parts := by
  cases fuel with
  | zero => omega
  | succ f =>
    simp only [parseLoopF]
    rw [if_neg hp, if_neg (lt_irrefl p)]
    rfl

/-- The parser loop over a region without any substitution opener scans to
the end and pushes the pending text as one literal part. -/
theorem parse_no_subst_loop (cs : Str) (hA : allASCII cs) :
    ∀ (fuel startPos pos : Nat) (parts : List TemplateStringPart),
      cs.length - pos < fuel → startPos ≤ pos → pos ≤ cs.length →
      (∀ i, pos ≤ i → ¬(cs.get? i = some '$' ∧ cs.get? (i + 1) = some '\x7b')) →
      parseLoopF fuel cs startPos pos parts
        = some (if startPos < cs.length
            then parts ++ [TemplateStringPart.plainText
                ((cs.drop startPos).take (cs.length - startPos))]
            else parts) := by
  intro fuel
  have hlen := utf8Len_ascii cs hA
  induction fuel with
  | zero => intro startPos pos parts hf _ _ _; omega
  | succ f ih =>
    intro startPos pos parts hf hsp hpl hno
    simp only [parseLoopF, hlen]
    by_cases hp : pos < cs.length
    · rw [if_pos hp]
      obtain ⟨c, hc⟩ : ∃ c, cs.get? pos = some c :=
        ⟨_, List.get?_eq_get hp⟩
      simp only [hc]
      by_cases hdollar : c = '$'
      · rw [if_pos hdollar]
        by_cases hp1 : pos + 1 < cs.length
        · rw [if_pos hp1]
          obtain ⟨c2, hc2⟩ : ∃ c2, cs.get? (pos + 1) = some c2 :=
            ⟨_, List.get?_eq_get hp1⟩
          simp only [hc2]
          have hnb : ¬ c2 = '\x7b' := by
            intro hb
            exact hno pos le_rfl ⟨by rw [hc, hdollar], by rw [hc2, hb]⟩
          rw [if_neg hnb]
          exact ih startPos (pos + 1) parts (by omega) (by omega) (by omega)
            (fun i hi => hno i (by omega))
        · rw [if_neg hp1]
          exact ih startPos (pos + 1) parts (by omega) (by omega) (by omega)
            (fun i hi => hno i (by omega))
      · rw [if_neg hdollar]
        exact ih startPos (pos + 1) parts (by omega) (by omega) (by omega)
          (fun i hi => hno i (by omega))
    · rw [if_neg hp]
      have hpe : pos = cs.length := by omega
      rw [hpe]
      by_cases hsp2 : startPos < cs.length
      · rw [if_pos hsp2, if_pos hsp2]
        rw [byteSlice_ascii cs hA startPos cs.length hsp2.le le_rfl]
        rfl
      · rw [if_neg hsp2, if_neg hsp2]
        rfl

/-- Parsing an all-ASCII string with no substitution opener yields the whole
input as one literal part (or no part when empty). -/
theorem try_from_no_subst (cs : Str) (hA : allASCII cs)
    (hns : no_substitution cs) :
    TemplateString.try_from cs
      = some ⟨if cs = [] then []
          else [TemplateStringPart.plainText cs]⟩ := by
  have hlen := utf8Len_ascii cs hA
  have hno : ∀ i, 0 ≤ i →
      ¬(cs.get? i = some '$' ∧ cs.get? (i + 1) = some '\x7b') := by
    intro i _
    by_cases hi : i < cs.length
    · exact hns i hi
    · intro hfalse
      have : cs.get? i = none := List.get?_eq_none.mpr (by omega)
      rw [this] at hfalse
      exact Option.noConfusion hfalse.1
  unfold TemplateString.try_from
  rw [hlen, parse_no_subst_loop cs hA (cs.length + 1) 0 0 [] (by omega)
    (by omega) (by omega) hno]
  cases cs with
  | nil => rfl
  | cons c s => simp

/-- Claim C9 (code bug): parse-then-expand is the identity on
substitution-free ASCII strings, but on a non-ASCII input (even one without
any substitution) the parser panics, because the source indexes the
collected char vector with byte offsets. -/
theorem C9_parse_expand_roundtrip :
    TemplateString.try_from (str "é") = none ∧
    (∀ cs : Str, allASCII cs → no_substitution cs →
      ∃ t, TemplateString.try_from cs = some t ∧
        ∀ replacer : Replacers, TemplateExpander.expand replacer t = .ok cs) := by
  refine ⟨by decide, ?_⟩
  intro cs hA hns
  refine ⟨_, try_from_no_subst cs hA hns, ?_⟩
  intro replacer
  by_cases h : cs = []
  · subst h
    rfl
  · simp [h, TemplateExpander.expand, expandParts, Except.map]

/-- Witness for C9: the round-trip identity at the concrete ASCII input
abc. -/
theorem C9_parse_expand_roundtrip_witness :
    ∃ t, TemplateString.try_from (str "abc") = some t ∧
      ∀ replacer : Replacers, TemplateExpander.expand replacer t = .ok (str "abc") :=
  C9_parse_expand_roundtrip.2 (str "abc") (by decide) (by decide)

/-- On an all-ASCII string the closing-brace scan always terminates at some
position between its start and the end of the string. -/
theorem scanCloseF_some (cs : Str) (hA : allASCII cs) :
    ∀ (fuel pos : Nat), cs.length - pos < fuel → pos ≤ cs.length →
      ∃ p, scanCloseF fuel cs pos = some p ∧ pos ≤ p ∧ p ≤ cs.length := by
  intro fuel
  have hlen := utf8Len_ascii cs hA
  induction fuel with
  | zero => intro pos hf _; omega
  | succ f ih =>
    intro pos hf hpl
    simp only [scanCloseF, hlen]
    by_cases hp : pos < cs.length
    · rw [if_pos hp]
      obtain ⟨c, hc⟩ : ∃ c, cs.get? pos = some c := ⟨_, List.get?_eq_get hp⟩
      simp only [hc]
      by_cases hb : c = '\x7d'
      · rw [if_pos hb]
        exact ⟨pos, rfl, le_rfl, hpl⟩
      · rw [if_neg hb]
        obtain ⟨p, hsc, hp1, hp2⟩ := ih (pos + 1) (by omega) (by omega)
        exact ⟨p, hsc, by omega, hp2⟩
    · rw [if_neg hp]
      exact ⟨pos, rfl, le_rfl, hpl⟩

/-- On an all-ASCII string the parser loop never panics: from any reachable
state it returns some result. -/
theorem parseLoopF_ascii_total (cs : Str) (hA : allASCII cs) :
    ∀ (fuel startPos pos : Nat) (parts : List TemplateStringPart),
      cs.length - pos < fuel → startPos ≤ pos →
      (pos ≤ cs.length ∨ startPos = pos) →
      (parseLoopF fuel cs startPos pos parts).isSome = true := by
  intro fuel
  have hlen := utf8Len_ascii cs hA
  induction fuel with
  | zero => intro startPos pos parts hf _ _; omega
  | succ f ih =>
    intro startPos pos parts hf hsp hinv
    simp only [parseLoopF, hlen]
    by_cases hp : pos < cs.length
    · rw [if_pos hp]
      obtain ⟨c, hc⟩ : ∃ c, cs.get? pos = some c := ⟨_, List.get?_eq_get hp⟩
      simp only [hc]
      by_cases hdollar : c = '$'
      · rw [if_pos hdollar]
        by_cases hp1 : pos + 1 < cs.length
        · rw [if_pos hp1]
          obtain ⟨c2, hc2⟩ : ∃ c2, cs.get? (pos + 1) = some c2 :=
            ⟨_, List.get?_eq_get hp1⟩
          simp only [hc2]
          by_cases hb : c2 = '\x7b'
          · rw [if_pos hb]
            rw [byteSlice_ascii cs hA startPos pos hsp (by omega)]
            obtain ⟨p, hsc, hpp, hple⟩ :=
              scanCloseF_some cs hA (utf8Len cs + 1) (pos + 2)
                (by omega) (by omega)
            rw [hlen] at hsc
            by_cases hsp2 : startPos < pos
            · rw [if_pos hsp2]
              simp only [Option.pure_def, Option.bind_eq_bind, Option.some_bind, hsc]
              by_cases hse : pos + 2 < p
              · rw [if_pos hse, byteSlice_ascii cs hA (pos + 2) p (by omega) hple]
                simp only [Option.pure_def, Option.bind_eq_bind, Option.some_bind]
                exact ih (p + 1) (p + 1) _ (by omega) le_rfl (by omega)
              · rw [if_neg hse]
                exact ih (p + 1) (p + 1) _ (by omega) le_rfl (by omega)
            · rw [if_neg hsp2]
              simp only [Option.pure_def, Option.bind_eq_bind, Option.some_bind, hsc]
              by_cases hse : pos + 2 < p
              · rw [if_pos hse, byteSlice_ascii cs hA (pos + 2) p (by omega) hple]
                simp only [Option.pure_def, Option.bind_eq_bind, Option.some_bind]
                exact ih (p + 1) (p + 1) _ (by omega) le_rfl (by omega)
              · rw [if_neg hse]
                exact ih (p + 1) (p + 1) _ (by omega) le_rfl (by omega)
          · rw [if_neg hb]
            exact ih startPos (pos + 1) parts (by omega) (by omega) (by omega)
        · rw [if_neg hp1]
          exact ih startPos (pos + 1) parts (by omega) (by omega) (by omega)
      · rw [if_neg hdollar]
        exact ih startPos (pos + 1) parts (by omega) (by omega) (by omega)
    · rw [if_neg hp]
      by_cases hsp2 : startPos < pos
      · have hple : pos ≤ cs.length := by
          rcases hinv with h | h
          · exact h
          · omega
        rw [if_pos hsp2]
        rw [byteSlice_ascii cs hA startPos pos hsp (by omega)]
        rfl
      · rw [if_neg hsp2]
        rfl

/-- Parsing never panics on all-ASCII input: TryFrom returns Ok. -/
theorem try_from_ascii_total (cs : Str) (hA : allASCII cs) :
    (TemplateString.try_from cs).isSome = true := by
  unfold TemplateString.try_from
  have h := parseLoopF_ascii_total cs hA (utf8Len cs + 1) 0 0 []
    (by rw [utf8Len_ascii cs hA]; omega) le_rfl (Or.inl (by omega))
  cases hq : parseLoopF (utf8Len cs + 1) cs 0 0 [] with
  | none => rw [hq] at h; simp at h
  | some t => simp [hq]

/-- The closing-brace scan runs to the end of the string when no closing
brace occurs at or after the start position. -/
theorem scanCloseF_no_close (cs : Str) (hA : allASCII cs) :
    ∀ (fuel pos : Nat), cs.length - pos < fuel → pos ≤ cs.length →
      (∀ i, pos ≤ i → ¬ cs.get? i = some '\x7d') →
      scanCloseF fuel cs pos = some cs.length := by
  intro fuel
  have hlen := utf8Len_ascii cs hA
  induction fuel with
  | zero => intro pos hf _ _; omega
  | succ f ih =>
    intro pos hf hpl hno
    simp only [scanCloseF, hlen]
    by_cases hp : pos < cs.length
    · rw [if_pos hp]
      obtain ⟨c, hc⟩ : ∃ c, cs.get? pos = some c := ⟨_, List.get?_eq_get hp⟩
      simp only [hc]
      have hcb : ¬ c = '\x7d' := by
        intro hb
        exact hno pos le_rfl (by rw [hc, hb])
      rw [if_neg hcb]
      exact ih (pos + 1) (by omega) (by omega) (fun i hi => hno i (by omega))
    · rw [if_neg hp]
      have : pos = cs.length := by omega
      rw [this]

/-- The closing-brace scan stops at the first closing brace. -/
theorem scanCloseF_finds (cs : Str) (hA : allASCII cs) :
    ∀ (fuel pos k : Nat), cs.length - pos < fuel → pos ≤ k → k < cs.length →
      cs.get? k = some '\x7d' →
      (∀ i, pos ≤ i → i < k → ¬ cs.get? i = some '\x7d') →
      scanCloseF fuel cs pos = some k := by
  intro fuel
  have hlen := utf8Len_ascii cs hA
  induction fuel with
  | zero => intro pos k hf _ _ _ _; omega
  | succ f ih =>
    intro pos k hf hpk hkl hk hno
    simp only [scanCloseF, hlen]
    rw [if_pos (by omega : pos < cs.length)]
    by_cases hpe : pos = k
    · subst hpe
      simp only [List.get?_eq_getElem?] at hk
      simp [hk]
    · obtain ⟨c, hc⟩ : ∃ c, cs.get? pos = some c :=
        ⟨_, List.get?_eq_get (by omega : pos < cs.length)⟩
      simp only [hc]
      have hcb : ¬ c = '\x7d' := by
        intro hb
        exact hno pos le_rfl (by omega) (by rw [hc, hb])
      rw [if_neg hcb]
      exact ih (pos + 1) k (by omega) (by omega) hkl hk
        (fun i hi hik => hno i (by omega) hik)

/-- Parsing an unterminated substitution (an opener followed by a non-empty
brace-free body running to the end of input) produces exactly the same single
substitution part as the brace-closed form. -/
theorem try_from_unterminated (body : Str) (hA : allASCII body)
    (hne : body ≠ []) (hnb : ¬ '\x7d' ∈ body) :
    TemplateString.try_from (str "$\x7b" ++ body)
      = some ⟨[mkSubstitution body]⟩ ∧
    TemplateString.try_from (str "$\x7b" ++ body ++ str "\x7d")
      = some ⟨[mkSubstitution body]⟩ := by
  have hbl : 0 < body.length := by
    cases body with
    | nil => exact absurd rfl hne
    | cons b0 brest => simp
  constructor
  · -- unterminated form
    have hs : str "$\x7b" ++ body = '$' :: '\x7b' :: body := rfl
    rw [hs]
    have hAs : allASCII ('$' :: '\x7b' :: body) := by
      intro c hc
      simp only [List.mem_cons] at hc
      rcases hc with rfl | rfl | hc
      · decide
      · decide
      · exact hA c hc
    have hslen : ('$' :: '\x7b' :: body).length = body.length + 2 := by simp
    have hlen : utf8Len ('$' :: '\x7b' :: body) = body.length + 2 := by
      rw [utf8Len_ascii _ hAs, hslen]
    have hno : ∀ i, 2 ≤ i → ¬ ('$' :: '\x7b' :: body).get? i = some '\x7d' := by
      intro i hi hget
      obtain ⟨j, rfl⟩ : ∃ j, i = j + 2 := ⟨i - 2, by omega⟩
      have hbj : body.get? j = some '\x7d' := hget
      exact hnb (List.get?_mem hbj)
    have hscan : scanCloseF (utf8Len ('$' :: '\x7b' :: body) + 1)
        ('$' :: '\x7b' :: body) 2 = some ('$' :: '\x7b' :: body).length :=
      scanCloseF_no_close _ hAs _ 2 (by omega) (by omega) hno
    unfold TemplateString.try_from
    simp only [parseLoopF]
    rw [if_pos (by omega : (0 : Nat) < utf8Len ('$' :: '\x7b' :: body))]
    have h0 : ('$' :: '\x7b' :: body).get? 0 = some '$' := rfl
    have h1 : ('$' :: '\x7b' :: body).get? 1 = some '\x7b' := rfl
    simp only [h0, h1, if_true]
    rw [if_pos (by omega : (0 : Nat) + 1 < utf8Len ('$' :: '\x7b' :: body))]
    rw [if_neg (lt_irrefl 0)]
    simp only [Option.pure_def, Option.bind_eq_bind, Option.some_bind, hscan]
    rw [if_pos (by omega : (0 : Nat) + 2 < ('$' :: '\x7b' :: body).length)]
    have hslice : byteSlice ('$' :: '\x7b' :: body) (0 + 2)
        ('$' :: '\x7b' :: body).length = some body := by
      rw [byteSlice_ascii _ hAs (0 + 2) _ (by omega) le_rfl]
      have hdrop : ('$' :: '\x7b' :: body).drop (0 + 2) = body := rfl
      rw [hdrop]
      have h2 : ('$' :: '\x7b' :: body).length - (0 + 2) = body.length := by omega
      rw [h2, List.take_length]
    rw [hslice]
    simp only [Option.pure_def, Option.bind_eq_bind, Option.some_bind]
    rw [parseLoopF_done _ (utf8Len ('$' :: '\x7b' :: body))
      (('$' :: '\x7b' :: body).length + 1) _ (by omega)
      (by omega : ¬ ('$' :: '\x7b' :: body).length + 1
        < utf8Len ('$' :: '\x7b' :: body))]
    rfl
  · -- brace-closed form
    have hs : str "$\x7b" ++ body ++ str "\x7d"
        = '$' :: '\x7b' :: (body ++ ['\x7d']) := by
      simp [str]
    rw [hs]
    have hAs : allASCII ('$' :: '\x7b' :: (body ++ ['\x7d'])) := by
      intro c hc
      simp only [List.mem_cons] at hc
      rcases hc with rfl | rfl | hc
      · decide
      · decide
      · rcases List.mem_append.mp hc with hc | hc
        · exact hA c hc
        · simp only [List.mem_singleton] at hc
          subst hc
          decide
    have hslen : ('$' :: '\x7b' :: (body ++ ['\x7d'])).length
        = body.length + 3 := by simp
    have hlen : utf8Len ('$' :: '\x7b' :: (body ++ ['\x7d']))
        = body.length + 3 := by
      rw [utf8Len_ascii _ hAs, hslen]
    have hk : ('$' :: '\x7b' :: (body ++ ['\x7d'])).get? (body.length + 2)
        = some '\x7d' := by
      show (body ++ ['\x7d']).get? body.length = some '\x7d'
      exact List.get?_concat_length body '\x7d'
    have hno : ∀ i, 2 ≤ i → i < body.length + 2 →
        ¬ ('$' :: '\x7b' :: (body ++ ['\x7d'])).get? i = some '\x7d' := by
      intro i hi hik hget
      obtain ⟨j, rfl⟩ : ∃ j, i = j + 2 := ⟨i - 2, by omega⟩
      have hj : j < body.length := by omega
      have hbj : (body ++ ['\x7d']).get? j = some '\x7d' := hget
      rw [List.get?_append hj] at hbj
      exact hnb (List.get?_mem hbj)
    have hscan : scanCloseF (utf8Len ('$' :: '\x7b' :: (body ++ ['\x7d'])) + 1)
        ('$' :: '\x7b' :: (body ++ ['\x7d'])) 2 = some (body.length + 2) :=
      scanCloseF_finds _ hAs _ 2 (body.length + 2) (by omega) (by omega)
        (by omega) hk hno
    unfold TemplateString.try_from
    simp only [parseLoopF]
    rw [if_pos (by omega :
      (0 : Nat) < utf8Len ('$' :: '\x7b' :: (body ++ ['\x7d'])))]
    have h0 : ('$' :: '\x7b' :: (body ++ ['\x7d'])).get? 0 = some '$' := rfl
    have h1 : ('$' :: '\x7b' :: (body ++ ['\x7d'])).get? 1 = some '\x7b' := rfl
    simp only [h0, h1, if_true]
    rw [if_pos (by omega :
      (0 : Nat) + 1 < utf8Len ('$' :: '\x7b' :: (body ++ ['\x7d'])))]
    rw [if_neg (lt_irrefl 0)]
    simp only [Option.pure_def, Option.bind_eq_bind, Option.some_bind, hscan]
    rw [if_pos (by omega : (0 : Nat) + 2 < body.length + 2)]
    have hslice : byteSlice ('$' :: '\x7b' :: (body ++ ['\x7d'])) (0 + 2)
        (body.length + 2) = some body := by
      rw [byteSlice_ascii _ hAs (0 + 2) (body.length + 2) (by omega) (by omega)]
      have hdrop : ('$' :: '\x7b' :: (body ++ ['\x7d'])).drop (0 + 2)
          = body ++ ['\x7d'] := rfl
      rw [hdrop]
      have h2 : body.length + 2 - (0 + 2) = body.length := by omega
      rw [h2, List.take_left]
    rw [hslice]
    simp only [Option.pure_def, Option.bind_eq_bind, Option.some_bind]
    rw [parseLoopF_done _ (utf8Len ('$' :: '\x7b' :: (body ++ ['\x7d'])))
      (body.length + 2 + 1) _ (by omega)
      (by omega : ¬ body.length + 2 + 1
        < utf8Len ('$' :: '\x7b' :: (body ++ ['\x7d'])))]
    rfl

/-- Claim C10, amended: parsing returns Ok on every all-ASCII input (on
non-ASCII input it panics, because byte offsets are used to index the char
vector); an unterminated substitution with a non-empty body parses to exactly
the same single substitution segment as its brace-closed form (not literal
text and not an error); an empty substitution body, closed or unterminated at
end of input, produces no segment at all. -/
theorem C10_parser_amended :
    (∀ cs : Str, allASCII cs → (TemplateString.try_from cs).isSome = true) ∧
    (∀ body : Str, allASCII body → body ≠ [] → ¬ '\x7d' ∈ body →
      TemplateString.try_from (str "$\x7b" ++ body)
        = some ⟨[mkSubstitution body]⟩ ∧
      TemplateString.try_from (str "$\x7b" ++ body ++ str "\x7d")
        = some ⟨[mkSubstitution body]⟩) ∧
    TemplateString.try_from (str "$\x7b\x7d") = some ⟨[]⟩ ∧
    TemplateString.try_from (str "$\x7b") = some ⟨[]⟩ :=
  ⟨try_from_ascii_total, try_from_unterminated, by decide, by decide⟩

/-- Witness for C10: totality at the concrete input xy and the unterminated
equivalence at the concrete body abc. -/
theorem C10_parser_amended_witness :
    (TemplateString.try_from (str "xy")).isSome = true ∧
    (TemplateString.try_from (str "$\x7babc")
        = some ⟨[mkSubstitution (str "abc")]⟩ ∧
      TemplateString.try_from (str "$\x7babc\x7d")
        = some ⟨[mkSubstitution (str "abc")]⟩) :=
  ⟨C10_parser_amended.1 (str "xy") (by decide),
   C10_parser_amended.2.1 (str "abc") (by decide) (by decide) (by decide)⟩

/-- Retry-loop invariants of the lock guard: at most remaining try_lock
calls; on success one more try_lock than sleeps; on failure the error is the
timeout message after exactly remaining try_locks and sleeps; the acquiring
notice is printed exactly once as soon as at least one attempt failed (and
never once it has already been printed). -/
theorem lockLoop_spec (t : Nat → Bool) :
    ∀ (remaining attempt : Nat) (hM : Bool),
      ((lockLoop t attempt remaining hM).1.count Effect.tryLock ≤ remaining) ∧
      ((lockLoop t attempt remaining hM).2 = .ok () →
        (lockLoop t attempt remaining hM).1.count Effect.tryLock
          = (lockLoop t attempt remaining hM).1.count (Effect.sleep 1) + 1) ∧
      (∀ e, (lockLoop t attempt remaining hM).2 = .error e →
        e = lockTimeoutMsg ∧
        (lockLoop t attempt remaining hM).1.count Effect.tryLock = remaining ∧
        (lockLoop t attempt remaining hM).1.count (Effect.sleep 1) = remaining) ∧
      (hM = false →
        (lockLoop t attempt remaining hM).1.count (Effect.print acquireMsg)
          = min 1 ((lockLoop t attempt remaining hM).1.count (Effect.sleep 1))) ∧
      (hM = true →
        (lockLoop t attempt remaining hM).1.count (Effect.print acquireMsg) = 0) := by
  intro remaining
  induction remaining with
  | zero =>
    intro attempt hM
    simp [lockLoop]
  | succ r ih =>
    intro attempt hM
    by_cases h : t attempt
    · simp [lockLoop, h]
    · have IH := ih (attempt + 1) true
      have hp0 : (lockLoop t (attempt + 1) r true).1.count (Effect.print acquireMsg) = 0 :=
        IH.2.2.2.2 rfl
      cases hM with
      | false =>
        simp only [lockLoop, h, if_false, Bool.false_eq_true]
        simp [List.count_cons, List.count_append, hp0]
        refine ⟨IH.1, fun hok => ?_, fun e he => ?_⟩
        · have := IH.2.1 hok
          omega
        · have := IH.2.2.1 e he
          exact ⟨this.1, by omega, by omega⟩
      | true =>
        simp only [lockLoop, h, if_false, Bool.false_eq_true]
        simp [List.count_cons, List.count_append, hp0]
        refine ⟨IH.1, fun hok => ?_, fun e he => ?_⟩
        · have := IH.2.1 hok
          omega
        · have := IH.2.2.1 e he
          exact ⟨this.1, by omega, by omega⟩

/-- Claim C5: the lock guard calls try_lock up to 60 times, sleeps one second
after each failed attempt (on success there is exactly one more try_lock than
sleeps, on timeout exactly 60 of each), prints the acquiring notice exactly
once as soon as an attempt failed, behaves as claimed on the
three-failures-then-success mock (three sleeps, one notice, in order),
times out with the lock error when all attempts fail, and releasing the
guard emits unlock. -/
theorem C5_lock_guard :
    (∀ t : Nat → Bool, (LockGuard.new t).1.count Effect.tryLock ≤ 60) ∧
    (∀ t : Nat → Bool, (LockGuard.new t).2 = .ok () →
      (LockGuard.new t).1.count Effect.tryLock
        = (LockGuard.new t).1.count (Effect.sleep 1) + 1) ∧
    (∀ (t : Nat → Bool) (e : Str), (LockGuard.new t).2 = .error e →
      e = lockTimeoutMsg ∧
      (LockGuard.new t).1.count Effect.tryLock = 60 ∧
      (LockGuard.new t).1.count (Effect.sleep 1) = 60) ∧
    (∀ t : Nat → Bool, (LockGuard.new t).1.count (Effect.print acquireMsg)
        = min 1 ((LockGuard.new t).1.count (Effect.sleep 1))) ∧
    LockGuard.new fxTry3 =
      ([Effect.tryLock, Effect.print acquireMsg, Effect.sleep 1, Effect.tryLock,
        Effect.sleep 1, Effect.tryLock, Effect.sleep 1, Effect.tryLock], .ok ()) ∧
    (LockGuard.new (fun _ => false)).2 = .error lockTimeoutMsg ∧
    LockGuard.drop = [Effect.unlock] := by
  refine ⟨fun t => (lockLoop_spec t 60 0 false).1,
    fun t => (lockLoop_spec t 60 0 false).2.1,
    fun t => (lockLoop_spec t 60 0 false).2.2.1,
    fun t => (lockLoop_spec t 60 0 false).2.2.2.1 rfl,
    by decide, by decide, rfl⟩

/-- Witness for C5: the three-failures-then-success mock satisfies the
success count law, and the always-false mock hits the timeout case with
60 try_locks and 60 sleeps. -/
theorem C5_lock_guard_witness :
    ((LockGuard.new fxTry3).1.count Effect.tryLock
      = (LockGuard.new fxTry3).1.count (Effect.sleep 1) + 1) ∧
    (lockTimeoutMsg = lockTimeoutMsg ∧
      (LockGuard.new (fun _ => false)).1.count Effect.tryLock = 60 ∧
      (LockGuard.new (fun _ => false)).1.count (Effect.sleep 1) = 60) :=
  ⟨C5_lock_guard.2.1 fxTry3 (by decide),
   C5_lock_guard.2.2.1 (fun _ => false) lockTimeoutMsg (by decide)⟩

end ToolTool
